import Mathlib

/-!
Verification development for the dynamic-port-mapper supervisor
(`container_store.go`, `main.go`).

The Go source is shallowly embedded as pure Lean functions.  Conventions:

* Go maps become association lists (`List (String × α)`); lookups use
  `List.find?`.  Container ids listed by the runtime are unique, so map
  insertion under distinct keys coincides with list append; theorems that
  need this carry an explicit `Nodup` hypothesis on the listed ids.
* Calls into the container runtime (`docker …`) are modelled as explicit
  inputs: the result of `docker ps` is a `Listing` argument, `docker
  inspect` results are arguments, the OS-level `net.Listen` probe and
  `rand.Intn` are oracle functions `listen : Int → Bool` and
  `draws : Nat → Nat` (the draw stream is indexed; each `rand.Intn` call
  consumes one index).
* Go `strconv.Atoi` with a discarded error yields `0` on failure; this is
  `atoiZ`.  `strconv.Atoi` with a checked error is `goAtoi`.
* `rand.Intn n` panics when `n ≤ 0`; partiality from such panics is an
  `Option`/dedicated outcome type (`none` = panic), never a default value.
* Port numbers are Go `int`s, embedded as `Int`.
-/

/-- One regex match of `portRegex = ((\d+\.\d+\.\d+\.\d+):)?(\d+)->(\d+)/(\w+)`
applied to a `docker ps` Ports column: `match[2]` (host port), `match[3]`
(container port), `match[4]` (protocol).  The optional IP group is not used
by any modelled function. -/
structure PortMatch where
  host : String
  cport : String
  proto : String
deriving Repr, DecidableEq

/-- `PortMapping` from `main.go:32-37`. -/
structure PortMapping where
  containerPort : String
  hostPort : String
  protocol : String
  originalPort : String
deriving Repr, DecidableEq

/-- `Container` from `main.go:17-29`, restricted to the fields read by the
modelled functions (`ID`, `PortMappings`, `DynamicPorts`); the display-only
string fields (image, command, names, …) are omitted. -/
structure Container where
  id : String
  portMappings : List PortMapping
  dynamicPorts : Bool
deriving Repr, DecidableEq

/-- The three maps of `ContainerStore` (`container_store.go:42-51`):
`containers`, `portMappings` (containerID → "cport/proto" → host port) and
`processedContainers` (a set: Go stores `id ↦ true`). -/
structure ContainerStore where
  containers : List Container
  portMappings : List (String × List (String × String))
  processed : List String
deriving Repr, DecidableEq

/-- Association-list lookup, mirroring a Go map read `m[k]`. -/
def lookupA {α : Type} (l : List (String × α)) (k : String) : Option α :=
  (l.find? fun e => e.1 == k).map Prod.snd

/-- Two-level lookup `portMappings[id][key]`. -/
def lookup2 (pm : List (String × List (String × String))) (id key : String) :
    Option String :=
  match lookupA pm id with
  | none => none
  | some m => lookupA m key

/-- Go map assignment `m[k] = v` on an association list. -/
def mapSet (l : List (String × String)) (k v : String) : List (String × String) :=
  match l with
  | [] => [(k, v)]
  | (k', v') :: rest => if k' == k then (k, v) :: rest else (k', v') :: mapSet rest k v

/-- Digit accumulation of `strconv.Atoi`. -/
def digitsToNatAux : List Char → Nat → Option Nat
  | [], acc => some acc
  | c :: rest, acc =>
    if c.isDigit then digitsToNatAux rest (acc * 10 + (c.toNat - '0'.toNat)) else none

/-- The digit run of `strconv.Atoi`: at least one digit, all digits. -/
def digitsToNat : List Char → Option Nat
  | [] => none
  | c :: rest => digitsToNatAux (c :: rest) 0

/-- Go `strconv.Atoi` (overflow aside): an optional single sign followed by
a non-empty digit run.  (A kernel-reducible stand-in for `String.toInt?`,
whose position-based recursion does not evaluate definitionally.) -/
def goAtoi (s : String) : Option Int :=
  match s.data with
  | '-' :: rest => (digitsToNat rest).map fun n => -(n : Int)
  | '+' :: rest => (digitsToNat rest).map fun n => (n : Int)
  | cs => (digitsToNat cs).map fun n => (n : Int)

/-- Splitter of Go `strings.Split` for a one-character separator. -/
def splitOnCharAux (sep : Char) : List Char → List Char → List (List Char)
  | [], acc => [acc.reverse]
  | c :: rest, acc =>
    if c = sep then acc.reverse :: splitOnCharAux sep rest []
    else splitOnCharAux sep rest (c :: acc)

/-- Go `strings.Split(s, sep)` for a one-character separator (all modelled
call sites split on `"/"` or `":"`). -/
def goSplit (sep : Char) (s : String) : List String :=
  (splitOnCharAux sep s.data []).map String.mk

/-- Go `strings.HasPrefix`. -/
def goHasPrefix (pre s : String) : Bool := List.isPrefixOf pre.data s.data

/-- The binding key `fmt.Sprintf("%s/%s", cport, proto)`. -/
def mkPortKey (cport proto : String) : String := cport ++ "/" ++ proto

def getContainer (s : ContainerStore) (id : String) : Option Container :=
  s.containers.find? fun c => c.id == id

def getBinding (s : ContainerStore) (id key : String) : Option PortMapping :=
  match getContainer s id with
  | none => none
  | some c => c.portMappings.find? fun pm => mkPortKey pm.containerPort pm.protocol == key

/-- The sentinel label key (`container_store.go:479` etc.). -/
def sentinelLabel : String := "com.dynamic-port-mapper.has-dynamic-ports"

/-- `strconv.Atoi` with the error discarded (`existingPort, _ :=
strconv.Atoi(...)`): Go leaves the int result `0` on a syntax error. -/
def atoiZ (v : String) : Int := (goAtoi v).getD 0

/-- `addDynamicPortLabel` (`container_store.go:462-494`): records the id in
the in-memory processed map.  The follow-up best-effort `docker container
update --label` side effect only mutates the runtime, not the store, and is
dropped here (the label oracle passed to readers is an input). -/
def addDynamicPortLabel (s : ContainerStore) (cid : String) : ContainerStore :=
  if cid ∈ s.processed then s else { s with processed := s.processed ++ [cid] }

/-- `isContainerProcessed` (`container_store.go:498-519`) as a pure check:
the in-memory set first, then the sentinel label via the `labelOf` oracle
(`labelOf id key` = `extractLabel(id, key)`). -/
def isContainerProcessedB (s : ContainerStore) (labelOf : String → String → String)
    (cid : String) : Bool :=
  cid ∈ s.processed || labelOf cid sentinelLabel == "true"

/-- `isContainerProcessed` with its caching side effect: a positive label
answer is written back into the in-memory set
(`container_store.go:510-515`). -/
def isContainerProcessedM (s : ContainerStore) (labelOf : String → String → String)
    (cid : String) : Bool × ContainerStore :=
  if cid ∈ s.processed then (true, s)
  else if labelOf cid sentinelLabel == "true" then (true, addDynamicPortLabel s cid)
  else (false, s)

/-- `restorePortMappings` (`container_store.go:522-556`): rebuild the
bindings of a container from the parsed Ports string and the previously
stored `"<cport>/<proto>" → hostPort` map. -/
def restorePortMappings (matchList : List PortMatch)
    (storedMappings : List (String × String)) : List PortMapping × Bool :=
  match matchList with
  | [] => ([], false)
  | m :: rest =>
    let (tl, dynTl) := restorePortMappings rest storedMappings
    match lookupA storedMappings (mkPortKey m.cport m.proto) with
    | some storedPort =>
      if storedPort ≠ m.host then
        (⟨m.cport, storedPort, m.proto, m.host⟩ :: tl, true)
      else
        (⟨m.cport, m.host, m.proto, m.host⟩ :: tl, dynTl)
    | none => (⟨m.cport, m.host, m.proto, m.host⟩ :: tl, dynTl)

/-- Port-range check of the `allPortsInDynamicRange` loop
(`container_store.go:307-314`): `strconv.Atoi` failure or an out-of-range
value breaks the flag. -/
def matchInRange (min max : Int) (m : PortMatch) : Bool :=
  match goAtoi m.host with
  | none => false
  | some p => decide (min ≤ p) && decide (p ≤ max)

/-- `parsePortsWithoutRemapping` (`container_store.go:273-324`).  The
in-refresh `addDynamicPortLabel` write (line 319) is discarded at the final
swap of `refreshContainers` (the new processed map is built from the
pre-parse snapshot, line 253), so it is dropped here; only the returned
mappings and `dynamicPorts` flag survive. -/
def parsePortsWithoutRemapping (s : ContainerStore)
    (labelOf : String → String → String) (min max : Int)
    (containerID : String) (matchList : List PortMatch)
    (existingMappings : List (String × List (String × String))) :
    List PortMapping × Bool :=
  match lookupA existingMappings containerID with
  | some stored => restorePortMappings matchList stored
  | none =>
    let mappings := matchList.map fun m => (⟨m.cport, m.host, m.proto, m.host⟩ : PortMapping)
    if isContainerProcessedB s labelOf containerID then
      (mappings, true)
    else if matchList ≠ [] && matchList.all (matchInRange min max) then
      (mappings, true)
    else
      (mappings, false)

/-- One line of `docker ps --format {{json .}}` output, reduced to the
fields the modelled code reads: the container id and the `portRegex`
matchList of its Ports column.  Lines that fail JSON parsing, and entries
whose follow-up `docker inspect` existence check fails, are skipped by the
source (`container_store.go:125-136`); a `Listing` holds exactly the
surviving entries. -/
abbrev Listing := List (String × List PortMatch)

/-- The listing-processing loop and final swap of `refreshContainers`
(`container_store.go:106-269`), given a successful `docker ps`.  Builds the
three new maps from scratch:
* each listed container's bindings via `parsePortsWithoutRemapping`,
* `newPortMappings[id][cport/proto] = pm.HostPort` when the binding list is
  non-empty (lines 243-250),
* `newProcessedContainers` = listed ids that were in the pre-parse
  processed snapshot (lines 252-255). -/
def refreshContainersOk (s : ContainerStore) (labelOf : String → String → String)
    (min max : Int) (entries : Listing) : ContainerStore :=
  let newContainers := entries.map fun e =>
    let pr := parsePortsWithoutRemapping s labelOf min max e.1 e.2 s.portMappings
    (⟨e.1, pr.1, pr.2⟩ : Container)
  let newPortMappings := entries.filterMap fun e =>
    let pr := parsePortsWithoutRemapping s labelOf min max e.1 e.2 s.portMappings
    if pr.1 ≠ [] then
      some (e.1, pr.1.map fun pm => (mkPortKey pm.containerPort pm.protocol, pm.hostPort))
    else none
  let newProcessed := (entries.map Prod.fst).filter fun id => id ∈ s.processed
  ⟨newContainers, newPortMappings, newProcessed⟩

/-- `refreshContainers` (`container_store.go:82-270`): a failed
`docker ps` (`.error`) returns the error with the store untouched
(lines 85-88); otherwise the new maps replace the old ones. -/
def refreshContainers (s : ContainerStore) (labelOf : String → String → String)
    (min max : Int) (listing : Except String Listing) :
    ContainerStore × Option String :=
  match listing with
  | .error e => (s, some ("error listing containers: " ++ e))
  | .ok entries => (refreshContainersOk s labelOf min max entries, none)

/-- The deletion step of `handleContainerStop`
(`container_store.go:1124-1129`): remove the id from all three maps. -/
def deleteFromStore (s : ContainerStore) (cid : String) : ContainerStore :=
  ⟨s.containers.filter fun c => ¬ (c.id == cid),
   s.portMappings.filter fun e => ¬ (e.1 == cid),
   s.processed.filter fun id => ¬ (id == cid)⟩

/-- `handleContainerStop` (`container_store.go:1116-1143`): delete the id,
then refresh. -/
def handleContainerStop (s : ContainerStore) (labelOf : String → String → String)
    (min max : Int) (cid : String) (listing : Except String Listing) :
    ContainerStore × Option String :=
  refreshContainers (deleteFromStore s cid) labelOf min max listing

/-! ### Lock/write trace of `refreshContainers`

`refreshContainers` touches the store lock in a fixed pattern: a shared
lock around the snapshot copy (lines 91/104) and a single exclusive lock
around the three map writes (lines 263-267).  On a failed `docker ps` it
returns before any lock operation (lines 85-88). -/

inductive StoreOp
  | rdLock
  | rdUnlock
  | wrLock
  | wrUnlock
  | setContainers
  | setPortMappings
  | setProcessed
deriving Repr, DecidableEq

/-- The sequence of lock and map-write operations performed by
`refreshContainers`, by whether `docker ps` failed. -/
def refreshContainersOps (listFailed : Bool) : List StoreOp :=
  if listFailed then []
  else [.rdLock, .rdUnlock, .wrLock, .setContainers, .setPortMappings,
        .setProcessed, .wrUnlock]

/-- Scan of an operation trace checking that every map write happens while
the exclusive lock is held, and that the exclusive lock is acquired at most
once over the whole trace. -/
def writesInOneCriticalSection (ops : List StoreOp) : Bool :=
  (ops.foldl (fun st op =>
    match st, op with
    | some (inCS, acqs), .wrLock => if inCS then none else some (true, acqs + 1)
    | some (inCS, acqs), .wrUnlock => if inCS then some (false, acqs) else none
    | some (inCS, acqs), .setContainers => if inCS then some (inCS, acqs) else none
    | some (inCS, acqs), .setPortMappings => if inCS then some (inCS, acqs) else none
    | some (inCS, acqs), .setProcessed => if inCS then some (inCS, acqs) else none
    | some st', _ => some st'
    | none, _ => none) (some (false, 0))).elim false fun st => !st.1 && st.2 ≤ 1

/-! ### Port allocator and collision detection -/

/-- `rand.Intn n` with draw value `r`: panics (`none`) when `n ≤ 0`,
otherwise a value in `[0, n)`.  An arbitrary draw stream value `r : Nat` is
reduced mod `n`, so every residue is reachable and only residues are. -/
def intn (n : Int) (r : Nat) : Option Int :=
  if n ≤ 0 then none else some ((r : Int) % n)

/-- The tracked-bindings part of `isPortAvailable`
(`container_store.go:627-634`): some tracked container has a binding whose
host port (Atoi, error discarded) equals `port`, any protocol. -/
def storeUsesPort (s : ContainerStore) (port : Int) : Bool :=
  s.containers.any fun c => c.portMappings.any fun pm => atoiZ pm.hostPort == port

/-- `isPortAvailable` (`container_store.go:625-643`): no tracked binding
uses the port (any protocol) and the `net.Listen("tcp", ...)` probe
(oracle `listen`) succeeds. -/
def isPortAvailable (s : ContainerStore) (listen : Int → Bool) (port : Int) : Bool :=
  !storeUsesPort s port && listen port

/-- `isPortUsedByOtherContainer` (`container_store.go:592-607`): some
container other than `containerID` has a binding on `(port, protocol)`. -/
def isPortUsedByOtherContainer (s : ContainerStore) (containerID : String)
    (port : Int) (protocol : String) : Bool :=
  s.containers.any fun c =>
    !(c.id == containerID) &&
      c.portMappings.any fun pm => atoiZ pm.hostPort == port && pm.protocol == protocol

/-- The attempt loop of `allocateRandomPort` (`container_store.go:610-622`):
`fuel` attempts starting at draw index `i`; each attempt draws
`rand.Intn(max-min) + min` and returns it if `isPortAvailable`; with fuel
exhausted, one final draw is returned unchecked.  Returns the port and the
next unused draw index; `none` models the `rand.Intn` panic when
`max - min ≤ 0`. -/
def allocLoop (s : ContainerStore) (min max : Int) (listen : Int → Bool)
    (draws : Nat → Nat) : Nat → Nat → Option (Int × Nat)
  | i, 0 => (intn (max - min) (draws i)).map fun r => (r + min, i + 1)
  | i, fuel + 1 =>
    match intn (max - min) (draws i) with
    | none => none
    | some r =>
      if isPortAvailable s listen (r + min) then some (r + min, i + 1)
      else allocLoop s min max listen draws (i + 1) fuel

/-- `allocateRandomPort` (`container_store.go:610-622`): up to 100 checked
attempts, then an unchecked fallback draw. -/
def allocateRandomPort (s : ContainerStore) (min max : Int) (listen : Int → Bool)
    (draws : Nat → Nat) (base : Nat) : Option (Int × Nat) :=
  allocLoop s min max listen draws base 100

/-- `checkPortCollision` (`container_store.go:559-589`): non-numeric host
port → no remap; in `[min, max]` → remap only if another container holds
`(port, protocol)`; outside the range → always remap.  Returns
`(needsRemap, port string, next draw index)`; `none` models the allocator
panic. -/
def checkPortCollision (s : ContainerStore) (min max : Int) (listen : Int → Bool)
    (draws : Nat → Nat) (idx : Nat) (containerID hostPort protocol : String) :
    Option (Bool × String × Nat) :=
  match goAtoi hostPort with
  | none => some (false, hostPort, idx)
  | some portInt =>
    if min ≤ portInt && portInt ≤ max then
      if isPortUsedByOtherContainer s containerID portInt protocol then
        (allocateRandomPort s min max listen draws idx).map fun pr =>
          (true, toString pr.1, pr.2)
      else some (false, hostPort, idx)
    else
      (allocateRandomPort s min max listen draws idx).map fun pr =>
        (true, toString pr.1, pr.2)

/-! ### The start-event handler -/

/-- One entry of the inspected `HostConfig.PortBindings` object as read by
`handleContainerStart`: the `"<cport>/<proto>"` key and the `HostPort`
string of the first binding in its array.  Entries whose binding array is
missing, empty or has a non-string `HostPort` are skipped by the source
(`container_store.go:1021-1030`); a skipped entry is represented here with
host-port `""` (which every loop of the source also skips). -/
abbrev HCBindings := List (String × String)

/-- The `allInDynamicRange` loop of `handleContainerStart`
(`container_store.go:1019-1037`): entries with empty host port are skipped;
any non-numeric or out-of-range host port clears the flag. -/
def allInDynamicRange (min max : Int) (bs : HCBindings) : Bool :=
  bs.all fun b =>
    b.2 == "" ||
      (match goAtoi b.2 with
       | none => false
       | some p => decide (min ≤ p) && decide (p ≤ max))

/-- The conflict-scan loop of `handleContainerStart`
(`container_store.go:1054-1082`): for each binding, skip empty host ports
and malformed keys, otherwise ask `checkPortCollision`; collect
`(key, newHostPort)` for every binding that needs a remap.  Returns the
collected list (in scan order; the Go map collapses duplicate keys, which
the runtime never produces) and the final draw index. -/
def computePortsToRemap (s : ContainerStore) (min max : Int) (listen : Int → Bool)
    (draws : Nat → Nat) (cid : String) :
    HCBindings → Nat → Option (List (String × String) × Nat)
  | [], idx => some ([], idx)
  | (key, hp) :: rest, idx =>
    if hp == "" then computePortsToRemap s min max listen draws cid rest idx
    else
      let parts := goSplit '/' key
      if parts.length = 2 then
        match checkPortCollision s min max listen draws idx cid hp (parts.getD 1 "") with
        | none => none
        | some (needsRemap, newPort, idx') =>
          match computePortsToRemap s min max listen draws cid rest idx' with
          | none => none
          | some (tl, idxF) =>
            some ((if needsRemap then [(key, newPort)] else []) ++ tl, idxF)
      else computePortsToRemap s min max listen draws cid rest idx

/-- A completed container recreation performed by `remapContainerPort`:
the replaced id, the id of the replacement (parsed from `docker run`
output, `container_store.go:855`), the remapped `"<cport>/<proto>"` key and
the old and new host ports. -/
structure Recreation where
  oldId : String
  newId : String
  key : String
  oldHostPort : String
  newHostPort : String
deriving Repr, DecidableEq

/-- Store-level effect of one `remapContainerPort` call
(`container_store.go:646-868`): the current id is marked processed before
anything else (line 653); if the runtime sequence
(inspect/stop/remove/run — collapsed into the `ok` flag) succeeds, the
replacement id is marked processed before returning (lines 860-862) and a
recreation is performed; on failure the error is returned with no
recreation.  The runtime-side attribute extraction (and its panics) is
modelled separately by `remapInspectPhase`. -/
def remapContainerPortStep (s : ContainerStore) (cid newId : String) (ok : Bool)
    (key oldHp newHp : String) : ContainerStore × List Recreation :=
  let s1 := addDynamicPortLabel s cid
  if ok then (addDynamicPortLabel s1 newId, [⟨cid, newId, key, oldHp, newHp⟩])
  else (s1, [])

/-- The remap loop of `handleContainerStart`
(`container_store.go:1089-1102`): one `remapContainerPort` call per
scheduled key; a failed call is logged and the loop continues.  `newIds k`
is the runtime-assigned id of the `k`-th recreation, `remapOk k` whether
the `k`-th call's runtime sequence succeeds. -/
def doRemaps (bs : HCBindings) (cid : String) (newIds : Nat → String)
    (remapOk : Nat → Bool) :
    ContainerStore → List (String × String) → Nat → ContainerStore × List Recreation
  | s, [], _ => (s, [])
  | s, (key, np) :: rest, k =>
    let oldHp := ((bs.find? fun b => b.1 == key).map Prod.snd).getD ""
    let (s', recs) := remapContainerPortStep s cid (newIds k) (remapOk k) key oldHp np
    let (s'', recsTl) := doRemaps bs cid newIds remapOk s' rest (k + 1)
    (s'', recs ++ recsTl)

/-- `handleContainerStart` (`container_store.go:964-1113`).  Arguments:
`labelOf` the `extractLabel` oracle, `inspectBindings` the parsed
`HostConfig.PortBindings` of the started container (`none` = the inspect
or its JSON parse failed, lines 991-1002), `listen`/`draws` the allocator
oracles, `newIds`/`remapOk` the per-recreation runtime outcomes, `listing`
the `docker ps` answer used by every `refreshContainers` call the handler
makes.  Result: the final store and the recreations performed; `none`
models the allocator panic when `max ≤ min`. -/
def handleContainerStart (s : ContainerStore) (min max : Int) (cid : String)
    (labelOf : String → String → String)
    (inspectBindings : Option HCBindings)
    (listen : Int → Bool) (draws : Nat → Nat)
    (newIds : Nat → String) (remapOk : Nat → Bool)
    (listing : Except String Listing) :
    Option (ContainerStore × List Recreation) :=
  let pr := isContainerProcessedM s labelOf cid
  if pr.1 then
    some ((refreshContainers pr.2 labelOf min max listing).1, [])
  else
    match inspectBindings with
    | none => some (s, [])
    | some bs =>
      if bs.isEmpty then some (s, [])
      else if allInDynamicRange min max bs then
        let s1 := addDynamicPortLabel s cid
        some ((refreshContainers s1 labelOf min max listing).1, [])
      else
        match computePortsToRemap s min max listen draws cid bs 0 with
        | none => none
        | some (toRemap, _) =>
          let (s2, recs) :=
            if toRemap.isEmpty then (addDynamicPortLabel s cid, [])
            else doRemaps bs cid newIds remapOk s toRemap 0
          some ((refreshContainers s2 labelOf min max listing).1, recs)

/-- The port-range assignment of `main`
(`main.go:379-401`): the `-min`/`-max` flag values are stored verbatim
into `portRangeMin`/`portRangeMax` with no validation. -/
def mainPortRange (minFlag maxFlag : Int) : Int × Int := (minFlag, maxFlag)

/-! ### Group pre-planner (compose conflict check and rewrite) -/

/-- A value of the YAML `published`/`target` fields, which the source reads
with both a string and an int type assertion
(`container_store.go:1294-1304`). -/
inductive PubVal
  | pstr (v : String)
  | pint (n : Int)
deriving Repr, DecidableEq

/-- One entry of a service's `ports` list: either the string form
`"H:C[/P]"` or the table form `{published, target, protocol}`
(`container_store.go:1277-1311`).  A `protocol` field holding a non-string
value fails the source's checked assertion and falls back to `"tcp"`,
exactly like an absent field, so it is modelled as `Option String`. -/
inductive ComposePort
  | str (v : String)
  | tbl (published : Option PubVal) (target : Option PubVal) (protocol : Option String)
deriving Repr, DecidableEq

/-- The port-entry parse of `CheckComposePortConflicts`
(`container_store.go:1275-1311`): yields `(hostPort, containerPort,
protocol)` strings; fields that cannot be read stay `""` (and the entry is
later skipped). -/
def parseComposePort : ComposePort → String × String × String
  | .str pm =>
    let parts := goSplit ':' pm
    if parts.length = 2 then
      let cpp := goSplit '/' (parts.getD 1 "")
      (parts.getD 0 "", cpp.getD 0 "", if cpp.length > 1 then cpp.getD 1 "" else "tcp")
    else ("", "", "")
  | .tbl published target protocol =>
    let hostPort := match published with
      | some (.pstr v) => v
      | some (.pint n) => toString n
      | none => ""
    let containerPort := match target with
      | some (.pstr v) => v
      | some (.pint n) => toString n
      | none => ""
    (hostPort, containerPort, protocol.getD "tcp")

/-- The in-use test of `CheckComposePortConflicts`
(`container_store.go:1323-1341`): first the protocol-specific scan over
tracked bindings, then — when that fails — `isPortAvailable`, whose own
container scan ignores the protocol. -/
def composeInUse (s : ContainerStore) (listen : Int → Bool) (portInt : Int)
    (protocol : String) : Bool :=
  let inUse := s.containers.any fun c =>
    c.portMappings.any fun pm => atoiZ pm.hostPort == portInt && pm.protocol == protocol
  if !inUse && !isPortAvailable s listen portInt then true else inUse

/-- The per-service port loop of `CheckComposePortConflicts`
(`container_store.go:1273-1351`): parse each entry, skip empty or
non-numeric host ports, and record `portRemappings["<svc>:<host>"] =
allocateRandomPort()` for each conflicting entry.  `min`/`max` are the
store's `portRangeMin`/`portRangeMax` read by the allocator.  Threads the
draw index; `none` models the allocator panic. -/
def checkServicePorts (s : ContainerStore) (min max : Int) (listen : Int → Bool)
    (draws : Nat → Nat) (serviceName : String) :
    List ComposePort → List (String × String) → Nat →
      Option (List (String × String) × Nat)
  | [], acc, idx => some (acc, idx)
  | e :: rest, acc, idx =>
    let p := parseComposePort e
    if p.1 == "" || p.2.1 == "" then
      checkServicePorts s min max listen draws serviceName rest acc idx
    else
      match goAtoi p.1 with
      | none => checkServicePorts s min max listen draws serviceName rest acc idx
      | some portInt =>
        if composeInUse s listen portInt p.2.2 then
          match allocateRandomPort s min max listen draws idx with
          | none => none
          | some (newPort, idx') =>
            checkServicePorts s min max listen draws serviceName rest
              (mapSet acc (serviceName ++ ":" ++ p.1) (toString newPort)) idx'
        else checkServicePorts s min max listen draws serviceName rest acc idx

/-- `CheckComposePortConflicts` (`container_store.go:1238-1354`) after the
descriptor has been rendered by `docker-compose config` and YAML-parsed:
scan every service's ports (services without a `ports` list are simply
absent here, matching the source's `continue`) and return the remapping
table `"<svc>:<host>" → new port string`.  `none` models the allocator
panic; the source's early errors (render or YAML failure, missing
`services` table) precede this scan and return an error to the caller. -/
def checkComposePortConflicts (s : ContainerStore) (min max : Int)
    (listen : Int → Bool) (draws : Nat → Nat) :
    List (String × List ComposePort) → List (String × String) → Nat →
      Option (List (String × String) × Nat)
  | [], acc, idx => some (acc, idx)
  | (svc, ports) :: rest, acc, idx =>
    match checkServicePorts s min max listen draws svc ports acc idx with
    | none => none
    | some (acc', idx') => checkComposePortConflicts s min max listen draws rest acc' idx'

/-- The per-entry substitution of `GenerateRemappedComposeFile`
(`container_store.go:1398-1420`): a string entry starting with
`oldPort ++ ":"` and splitting into exactly two parts has its host part
replaced; a table entry has `published` replaced when it equals `oldPort`,
a string view staying a string and an int view staying an int (the int
branch re-parses `newPort` with the Atoi error discarded).  All other
entries are returned unchanged. -/
def applyPortSub (oldPort newPort : String) : ComposePort → ComposePort
  | .str pm =>
    if goHasPrefix (oldPort ++ ":") pm then
      let parts := goSplit ':' pm
      if parts.length = 2 then .str (newPort ++ ":" ++ parts.getD 1 "")
      else .str pm
    else .str pm
  | .tbl published target protocol =>
    let published' := match published with
      | some (.pstr v) =>
        if v == oldPort then some (PubVal.pstr newPort) else some (PubVal.pstr v)
      | some (.pint n) =>
        if toString n == oldPort then some (PubVal.pint (atoiZ newPort))
        else some (PubVal.pint n)
      | none => none
    .tbl published' target protocol

/-- One outer-loop step of `GenerateRemappedComposeFile`
(`container_store.go:1377-1426`): split the remapping key
`"<svc>:<oldPort>"`; skip it unless the split has exactly two parts; apply
`applyPortSub` to every port entry of that service.  Services that do not
match, and descriptor structure, are untouched. -/
def applyRemapping (services : List (String × List ComposePort)) (key newPort : String) :
    List (String × List ComposePort) :=
  let parts := goSplit ':' key
  if parts.length = 2 then
    services.map fun sv =>
      if sv.1 == parts.getD 0 "" then
        (sv.1, sv.2.map (applyPortSub (parts.getD 1 "") newPort))
      else sv
  else services

/-- `GenerateRemappedComposeFile` (`container_store.go:1357-1452`) after
the original descriptor has been read and YAML-parsed: fold every recorded
remapping over the services table.  File I/O (temp-file creation and
write) and the YAML re-marshal are outside the store model. -/
def generateRemappedComposeFile (services : List (String × List ComposePort))
    (remappings : List (String × String)) : List (String × List ComposePort) :=
  remappings.foldl (fun acc e => applyRemapping acc e.1 e.2) services

/-! ### The recreator's inspect-data extraction (`remapContainerPort`)

`remapContainerPort` unmarshals `docker inspect <id>` into
`[]map[string]interface{}` and then navigates it with chained Go type
assertions.  An assertion `x.(T)` without the `, ok` form panics when the
value is absent (`nil`) or of another dynamic type.  JSON values are
embedded as `JVal`; JSON numbers are restricted to integers (no modelled
field is fractional). -/

inductive JVal
  | null
  | jbool (b : Bool)
  | num (n : Int)
  | str (v : String)
  | arr (elems : List JVal)
  | obj (fields : List (String × JVal))

/-- A Go map read `m[k]` on an unmarshalled JSON object. -/
def jget (fields : List (String × JVal)) (k : String) : Option JVal :=
  (fields.find? fun e => e.1 == k).map Prod.snd

/-- Result of a computation that may hit a failed type assertion: Go has no
recovery at this point in `remapContainerPort`, so a panic aborts the whole
call without producing an error value. -/
inductive Res (α : Type)
  | ok (a : α)
  | panic

def Res.bind {α β : Type} : Res α → (α → Res β) → Res β
  | .ok a, f => f a
  | .panic, _ => .panic

instance : Monad Res where
  pure := Res.ok
  bind := Res.bind

/-- The assertion `v.(string)` on a map read: panics unless the key is
present with a string value. -/
def asString : Option JVal → Res String
  | some (.str v) => .ok v
  | _ => .panic

/-- The assertion `v.(map[string]interface{})` on a map read. -/
def asObj : Option JVal → Res (List (String × JVal))
  | some (.obj fields) => .ok fields
  | _ => .panic

/-- `v.([]interface{})` on a map read (`Env`, line 695). -/
def asArr : Option JVal → Res (List JVal)
  | some (.arr elems) => .ok elems
  | _ => .panic

/-- The assertion `v.([]interface{})` on a value. -/
def asArrV : JVal → Res (List JVal)
  | .arr elems => .ok elems
  | _ => .panic

def asStringV : JVal → Res String
  | .str v => .ok v
  | _ => .panic

def asObjV : JVal → Res (List (String × JVal))
  | .obj fields => .ok fields
  | _ => .panic

/-- The `Env` loop (`container_store.go:695-699`): each element is
asserted to be a string. -/
def envStrings : List JVal → Res (List String)
  | [] => .ok []
  | e :: rest => do
    let v ← asStringV e
    let tl ← envStrings rest
    pure (v :: tl)

/-- The `Mounts` loop (`container_store.go:702-710`): the outer `, ok`
assertion makes a missing or non-array `Mounts` a silent skip, but each
element and its `Source`/`Destination` fields are asserted without `ok`. -/
def mountArgs : List JVal → Res (List String)
  | [] => .ok []
  | m :: rest => do
    let mo ← asObjV m
    let src ← asString (jget mo "Source")
    let dst ← asString (jget mo "Destination")
    let tl ← mountArgs rest
    pure ("-v" :: (src ++ ":" ++ dst) :: tl)

/-- One `PortBindings` entry's binding array
(`container_store.go:721-739`): the array assertion (line 721) and the
per-binding map assertion (line 725) have no `ok`; `HostIp`/`HostPort` use
presence checks but assert string on a present value. -/
def bindingPairs : List JVal → Res (List (String × String))
  | [] => .ok []
  | b :: rest => do
    let bo ← asObjV b
    let hostIP ← match jget bo "HostIp" with
      | none => pure ""
      | some v => asStringV v
    let hostPort ← match jget bo "HostPort" with
      | none => pure ""
      | some v => asStringV v
    let tl ← bindingPairs rest
    pure ((hostIP, hostPort) :: tl)

/-- The `PortBindings` loop (`container_store.go:713-741`): skip the key
being remapped, convert every other entry. -/
def portBindingsOf (portToRemap : String) :
    List (String × JVal) → Res (List (String × List (String × String)))
  | [] => .ok []
  | (port, bindings) :: rest =>
    if port == portToRemap then portBindingsOf portToRemap rest
    else do
      let arr ← asArrV bindings
      let prs ← bindingPairs arr
      let tl ← portBindingsOf portToRemap rest
      pure ((port, prs) :: tl)

/-- The label-argument loop (`container_store.go:771-774`): every label
value is asserted to be a string. -/
def labelArgsOf : List (String × JVal) → Res (List String)
  | [] => .ok []
  | (k, v) :: rest => do
    let vs ← asStringV v
    let tl ← labelArgsOf rest
    pure ("--label" :: (k ++ "=" ++ vs) :: tl)

/-- Go map assignment on a JSON object (used for the sentinel-label insert
at `container_store.go:769`). -/
def jmapSet (l : List (String × JVal)) (k : String) (v : JVal) : List (String × JVal) :=
  match l with
  | [] => [(k, v)]
  | (k', v') :: rest => if k' == k then (k, v) :: rest else (k', v') :: jmapSet rest k v

/-- The `RestartPolicy` extraction (`container_store.go:753-763`): every
assertion uses the `, ok` form, so this part cannot panic. -/
def restartPolicyOf (hostConfig : List (String × JVal)) : String :=
  match jget hostConfig "RestartPolicy" with
  | some (.obj policy) =>
    match jget policy "Name" with
    | some (.str nm) =>
      if nm ≠ "" then
        if nm = "on-failure" then
          match jget policy "MaximumRetryCount" with
          | some (.num k) => nm ++ ":" ++ toString k
          | _ => nm
        else nm
      else ""
    | _ => ""
  | _ => ""

/-- The attributes `remapContainerPort` collects from the inspect data to
rebuild the container (`container_store.go:672-774`). -/
structure InspectInfo where
  name : String
  image : String
  networkMode : String
  env : List String
  volumeArgs : List String
  portBindings : List (String × List (String × String))
  restartPolicy : String
  labelArgs : List String
deriving Repr, DecidableEq

/-- The extraction phase of `remapContainerPort`
(`container_store.go:672-774`) on the first inspect object.  Chained
assertions without `ok` (Name, Config, Image, HostConfig, NetworkMode,
Env and its elements, label values, …) panic on missing fields or wrong
dynamic types; `containerName[0]` panics on an empty name. -/
def extractContainerInfo (containerInfo : List (String × JVal))
    (containerPort protocol newHostPort : String) : Res InspectInfo := do
  let name0 ← asString (jget containerInfo "Name")
  let name ←
    match name0.data with
    | [] => (Res.panic : Res String)
    | c :: rest => pure (if c = '/' then String.mk rest else name0)
  let config ← asObj (jget containerInfo "Config")
  let image ← asString (jget config "Image")
  let hostConfig ← asObj (jget containerInfo "HostConfig")
  let networkMode ← asString (jget hostConfig "NetworkMode")
  let envRaw ← asArr (jget config "Env")
  let env ← envStrings envRaw
  let volumeArgs ← match jget containerInfo "Mounts" with
    | some (.arr ms) => mountArgs ms
    | _ => pure []
  let portToRemap := mkPortKey containerPort protocol
  let pb ← match jget hostConfig "PortBindings" with
    | some (.obj pbs) => portBindingsOf portToRemap pbs
    | _ => pure []
  let portBindings := pb ++ [(portToRemap, [("", newHostPort)])]
  let restartPolicy := restartPolicyOf hostConfig
  let labels ← asObj (jget config "Labels")
  let labels' := jmapSet labels sentinelLabel (.str "true")
  let labelArgs ← labelArgsOf labels'
  pure ⟨name, image, networkMode, env, volumeArgs, portBindings, restartPolicy, labelArgs⟩

/-- Overall outcome of the inspect-and-extract prefix of
`remapContainerPort`: a collected `InspectInfo`, an error returned to the
caller, or a Go panic. -/
inductive RemapResult
  | ok (info : InspectInfo)
  | err (msg : String)
  | panic
deriving Repr, DecidableEq

/-- The inspect phase of `remapContainerPort`
(`container_store.go:655-774`): a failed `docker inspect` or a failed
unmarshal into `[]map[string]interface{}` is returned as an error
(`.error` input); an empty array is returned as an error (lines 667-669);
everything after that is chained type assertions, whose failures panic
instead of producing an error. -/
def remapInspectPhase (inspectOutput : Except String (List (List (String × JVal))))
    (containerPort protocol newHostPort : String) : RemapResult :=
  match inspectOutput with
  | .error e => .err e
  | .ok [] => .err "no inspection data found for container"
  | .ok (d :: _) =>
    match extractContainerInfo d containerPort protocol newHostPort with
    | .ok info => .ok info
    | .panic => .panic

/-! ## Theorems -/

section Claims

/-- Claim C8: if listing containers fails during `refreshContainers`, the
store's three maps are left exactly unchanged and the error is returned to
the caller; when listing succeeds, the new maps replace the old ones, and
the operation trace of the source places all three map writes inside a
single exclusive-lock acquisition, so a reader never observes a
half-applied refresh. -/
theorem claim_C8 :
    (∀ (s : ContainerStore) (labelOf : String → String → String) (min max : Int)
       (e : String),
       refreshContainers s labelOf min max (.error e) =
         (s, some ("error listing containers: " ++ e))) ∧
    (∀ (s : ContainerStore) (labelOf : String → String → String) (min max : Int)
       (entries : Listing),
       refreshContainers s labelOf min max (.ok entries) =
         (refreshContainersOk s labelOf min max entries, none)) ∧
    refreshContainersOps true = [] ∧
    writesInOneCriticalSection (refreshContainersOps false) = true := by
  refine ⟨fun s labelOf min max e => rfl, fun s labelOf min max entries => rfl, rfl, ?_⟩
  decide

/-- An inspect answer whose single object is empty: `Name` is absent, so
`containerInfo["Name"].(string)` panics. -/
def inspectMissingName : List (List (String × JVal)) := [[]]

/-- An inspect answer with every asserted field present and well-typed
except for one label whose value is a JSON number: the `v.(string)` in the
label loop panics. -/
def inspectBadLabel : List (List (String × JVal)) :=
  [[("Name", .str "/web"),
    ("Config", .obj [("Image", .str "nginx"), ("Env", .arr [.str "A=1"]),
                     ("Labels", .obj [("answer", .num 42)])]),
    ("HostConfig", .obj [("NetworkMode", .str "default")])]]

/-- `inspectBadLabel` with the offending label value made a string. -/
def inspectGoodLabel : List (List (String × JVal)) :=
  [[("Name", .str "/web"),
    ("Config", .obj [("Image", .str "nginx"), ("Env", .arr [.str "A=1"]),
                     ("Labels", .obj [("answer", .str "42")])]),
    ("HostConfig", .obj [("NetworkMode", .str "default")])]]

/-- Claim C9: `remapContainerPort` assumes the inspect JSON contains
`Name`, `Config.Image`, `Config.Env`, `Config.Labels` and
`HostConfig.NetworkMode` with the expected dynamic types: an inspect
object missing such a field, or with a non-string label value, makes the
function panic on a failed type assertion instead of returning the error
to its caller — while a genuine inspect failure is returned as an error,
and the same data with a string label extracts successfully. -/
theorem claim_C9 :
    remapInspectPhase (.ok inspectMissingName) "80" "tcp" "10000" = .panic ∧
    remapInspectPhase (.ok inspectBadLabel) "80" "tcp" "10000" = .panic ∧
    remapInspectPhase (.error "failed to inspect container") "80" "tcp" "10000" =
      .err "failed to inspect container" ∧
    remapInspectPhase (.ok inspectGoodLabel) "80" "tcp" "10000" =
      .ok ⟨"web", "nginx", "default", ["A=1"], [], [("80/tcp", [("", "10000")])], "",
           ["--label", "answer=42", "--label", sentinelLabel ++ "=true"]⟩ := by
  refine ⟨rfl, rfl, rfl, ?_⟩
  decide

/-- The `rand.Intn(max-min)` panic: every attempt of the allocator draws
`rand.Intn` on a non-positive argument as soon as `max ≤ min`. -/
theorem allocLoop_eq_none_of_le {min max : Int} (h : max ≤ min)
    (s : ContainerStore) (listen : Int → Bool) (draws : Nat → Nat) :
    ∀ fuel i, allocLoop s min max listen draws i fuel = none := by
  intro fuel i
  cases fuel with
  | zero =>
    simp only [allocLoop, intn, if_pos (by omega : max - min ≤ 0), Option.map_none']
  | succ n =>
    simp only [allocLoop, intn, if_pos (by omega : max - min ≤ 0)]

/-- Claim C10: `allocateRandomPort` is only defined when `min < max`: for
every configuration with `max ≤ min` — which `main` accepts from the
`-min`/`-max` flags without validation (`mainPortRange` is the identity) —
every call panics inside `rand.Intn(max-min)` (modelled as `none`) rather
than returning a port or an error. -/
theorem claim_C10 (minFlag maxFlag : Int) (h : maxFlag ≤ minFlag) :
    mainPortRange minFlag maxFlag = (minFlag, maxFlag) ∧
    ∀ (s : ContainerStore) (listen : Int → Bool) (draws : Nat → Nat) (base : Nat),
      allocateRandomPort s (mainPortRange minFlag maxFlag).1
        (mainPortRange minFlag maxFlag).2 listen draws base = none := by
  exact ⟨rfl, fun s listen draws base => allocLoop_eq_none_of_le h s listen draws 100 base⟩

/-- Witness for C10 at the concrete flag values `-min 500 -max 100`. -/
theorem claim_C10_witness :
    allocateRandomPort ⟨[], [], []⟩ 500 100 (fun _ => true) (fun _ => 0) 0 = none := by
  have h := claim_C10 500 100 (by norm_num)
  simpa using h.2 ⟨[], [], []⟩ (fun _ => true) (fun _ => 0) 0

/-- The value of the allocator's `i`-th draw: `rand.Intn(max-min) + min`
with draw-stream value `draws i`. -/
def allocCandidate (min max : Int) (draws : Nat → Nat) (i : Nat) : Int :=
  ((draws i : Int) % (max - min)) + min

theorem allocLoop_range {s : ContainerStore} {min max : Int} {listen : Int → Bool}
    {draws : Nat → Nat} (h : min < max) :
    ∀ fuel i p j, allocLoop s min max listen draws i fuel = some (p, j) →
      min ≤ p ∧ p < max := by
  have hn : ¬ (max - min ≤ 0) := by omega
  have hpos : (0 : Int) < max - min := by omega
  intro fuel
  induction fuel with
  | zero =>
    intro i p j hpq
    simp only [allocLoop, intn, if_neg hn, Option.map_some', Option.some.injEq,
      Prod.mk.injEq] at hpq
    obtain ⟨hp, _⟩ := hpq
    have h1 : 0 ≤ (draws i : Int) % (max - min) := Int.emod_nonneg _ (by omega)
    have h2 : (draws i : Int) % (max - min) < max - min := Int.emod_lt_of_pos _ hpos
    omega
  | succ n ih =>
    intro i p j hpq
    simp only [allocLoop, intn, if_neg hn] at hpq
    by_cases hav : isPortAvailable s listen ((draws i : Int) % (max - min) + min) = true
    · rw [if_pos hav] at hpq
      obtain ⟨hp, _⟩ := Prod.mk.injEq .. ▸ Option.some.inj hpq
      have h1 : 0 ≤ (draws i : Int) % (max - min) := Int.emod_nonneg _ (by omega)
      have h2 : (draws i : Int) % (max - min) < max - min := Int.emod_lt_of_pos _ hpos
      omega
    · rw [if_neg hav] at hpq
      exact ih (i + 1) p j hpq

theorem allocLoop_accept {s : ContainerStore} {min max : Int} {listen : Int → Bool}
    {draws : Nat → Nat} (h : min < max) :
    ∀ fuel k i, k < fuel →
      (∀ j, j < k → isPortAvailable s listen (allocCandidate min max draws (i + j)) = false) →
      isPortAvailable s listen (allocCandidate min max draws (i + k)) = true →
      allocLoop s min max listen draws i fuel =
        some (allocCandidate min max draws (i + k), i + k + 1) := by
  have hn : ¬ (max - min ≤ 0) := by omega
  intro fuel
  induction fuel with
  | zero => intro k i hk; omega
  | succ n ih =>
    intro k i hk hprev hacc
    cases k with
    | zero =>
      simp only [Nat.add_zero] at hacc
      simp only [allocLoop, intn, if_neg hn, allocCandidate] at hacc ⊢
      rw [if_pos hacc]
      simp [allocCandidate]
    | succ k' =>
      have h0 : isPortAvailable s listen (allocCandidate min max draws i) = false := by
        have := hprev 0 (by omega)
        simpa using this
      simp only [allocLoop, intn, if_neg hn]
      have h0' : ¬ isPortAvailable s listen ((draws i : Int) % (max - min) + min) = true := by
        simp only [allocCandidate] at h0
        simp [h0]
      rw [if_neg h0']
      have hprev' : ∀ j, j < k' →
          isPortAvailable s listen (allocCandidate min max draws (i + 1 + j)) = false := by
        intro j hj
        have e : i + 1 + j = i + (j + 1) := by omega
        rw [e]
        exact hprev (j + 1) (by omega)
      have hacc' : isPortAvailable s listen (allocCandidate min max draws (i + 1 + k')) = true := by
        have e : i + 1 + k' = i + (k' + 1) := by omega
        rw [e]; exact hacc
      have := ih k' (i + 1) (by omega) hprev' hacc'
      rw [this]
      have e : i + 1 + k' = i + (k' + 1) := by omega
      rw [e]

theorem allocLoop_exhaust {s : ContainerStore} {min max : Int} {listen : Int → Bool}
    {draws : Nat → Nat} (h : min < max) :
    ∀ fuel i,
      (∀ j, j < fuel → isPortAvailable s listen (allocCandidate min max draws (i + j)) = false) →
      allocLoop s min max listen draws i fuel =
        some (allocCandidate min max draws (i + fuel), i + fuel + 1) := by
  have hn : ¬ (max - min ≤ 0) := by omega
  intro fuel
  induction fuel with
  | zero =>
    intro i _
    simp [allocLoop, intn, hn, allocCandidate]
  | succ n ih =>
    intro i hall
    have h0 : isPortAvailable s listen (allocCandidate min max draws i) = false := by
      have := hall 0 (by omega)
      simpa using this
    simp only [allocLoop, intn, if_neg hn]
    have h0' : ¬ isPortAvailable s listen ((draws i : Int) % (max - min) + min) = true := by
      simp only [allocCandidate] at h0
      simp [h0]
    rw [if_neg h0']
    have hall' : ∀ j, j < n →
        isPortAvailable s listen (allocCandidate min max draws (i + 1 + j)) = false := by
      intro j hj
      have e : i + 1 + j = i + (j + 1) := by omega
      rw [e]
      exact hall (j + 1) (by omega)
    rw [ih (i + 1) hall']
    have e : i + 1 + n = i + (n + 1) := by omega
    rw [e]

/-- Claim C5 (amended): `allocateRandomPort` makes up to 100 attempts, each
drawing `rand.Intn(max-min) + min`, a uniformly random integer from
`[min, max-1]` — `max` itself is never drawn; a candidate is accepted iff
no tracked binding uses the port under any protocol and the local TCP
listen probe on it succeeds; the first accepted candidate is returned; if
no candidate is accepted after 100 attempts, the 101st draw is returned
unchecked; and every port of `[min, max-1]` is a possible result. -/
theorem claim_C5 (s : ContainerStore) (min max : Int) (listen : Int → Bool)
    (draws : Nat → Nat) (h : min < max) :
    (∀ p j, allocateRandomPort s min max listen draws 0 = some (p, j) →
       min ≤ p ∧ p ≤ max - 1) ∧
    (∀ p, isPortAvailable s listen p = (!storeUsesPort s p && listen p)) ∧
    (∀ k, k < 100 →
       (∀ j, j < k → isPortAvailable s listen (allocCandidate min max draws j) = false) →
       isPortAvailable s listen (allocCandidate min max draws k) = true →
       allocateRandomPort s min max listen draws 0 =
         some (allocCandidate min max draws k, k + 1)) ∧
    ((∀ j, j < 100 → isPortAvailable s listen (allocCandidate min max draws j) = false) →
       allocateRandomPort s min max listen draws 0 =
         some (allocCandidate min max draws 100, 101)) ∧
    (∀ p, min ≤ p → p ≤ max - 1 →
       ∃ j, allocateRandomPort s min max listen (fun _ => (p - min).toNat) 0 =
         some (p, j)) := by
  refine ⟨?_, fun p => rfl, ?_, ?_, ?_⟩
  · intro p j hpq
    have := allocLoop_range h 100 0 p j hpq
    omega
  · intro k hk hprev hacc
    have := allocLoop_accept h 100 k 0 hk
      (by intro j hj; simpa using hprev j hj) (by simpa using hacc)
    simpa [allocateRandomPort] using this
  · intro hall
    have := allocLoop_exhaust h 100 0 (by intro j hj; simpa using hall j hj)
    simpa [allocateRandomPort] using this
  · intro p hp1 hp2
    have hc : ∀ i, allocCandidate min max (fun _ => (p - min).toNat) i = p := by
      intro i
      have h0 : (0 : Int) ≤ p - min := by omega
      have h1 : ((p - min).toNat : Int) = p - min := Int.toNat_of_nonneg h0
      have h2 : (p - min) % (max - min) = p - min :=
        Int.emod_eq_of_lt h0 (by omega)
      simp [allocCandidate, h1, h2]
    by_cases hav : isPortAvailable s listen p = true
    · refine ⟨1, ?_⟩
      have := @allocLoop_accept s min max listen (fun _ => (p - min).toNat) h 100 0 0
        (by omega) (by intro j hj; omega) (by simpa [hc] using hav)
      simpa [allocateRandomPort, hc] using this
    · refine ⟨101, ?_⟩
      have hav' : isPortAvailable s listen p = false := by
        simpa using hav
      have := @allocLoop_exhaust s min max listen (fun _ => (p - min).toNat) h 100 0
        (by intro j hj; simpa [hc] using hav')
      simpa [allocateRandomPort, hc] using this

/-- Witness for C5: on an empty store, with an all-true listen probe and an
all-zero draw stream, the allocator accepts the first candidate
`0 % 55000 + 10000 = 10000`. -/
theorem claim_C5_witness :
    allocateRandomPort ⟨[], [], []⟩ 10000 65000 (fun _ => true) (fun _ => 0) 0 =
      some (10000, 1) := by
  have h := (claim_C5 ⟨[], [], []⟩ 10000 65000 (fun _ => true) (fun _ => 0)
    (by norm_num)).2.2.1 0 (by norm_num) (by intro j hj; omega) (by decide)
  simpa [allocCandidate] using h

/-- Counterexample for claim C5 as stated: with range `[10000, 65000]`, no
oracle combination can make `allocateRandomPort` return `65000`, so `max`
is not a possible draw, contradicting "every port in `[min, max]`,
including `max`, is a possible draw". -/
theorem claim_C5_counterexample :
    ¬ ∃ (s : ContainerStore) (listen : Int → Bool) (draws : Nat → Nat) (j : Nat),
        allocateRandomPort s 10000 65000 listen draws 0 = some (65000, j) := by
  rintro ⟨s, listen, draws, j, heq⟩
  have := allocLoop_range (by norm_num) 100 0 65000 j heq
  omega

/-! ### Refresh-path lemmas -/

theorem find?_map_pred {α β : Type} (f : α → β) (p : β → Bool) (l : List α) :
    (l.map f).find? p = (l.find? fun x => p (f x)).map f := by
  rw [List.find?_map]
  rfl

theorem lookupA_map_eq_find {α β : Type} (f : α → String × β) (l : List α) (k : String) :
    lookupA (l.map f) k = (l.find? fun x => (f x).1 == k).map fun x => (f x).2 := by
  unfold lookupA
  rw [List.find?_map, Option.map_map]
  rfl

theorem lookupA_filterMap {β : Type} (fm : String × List PortMatch → Option (String × β))
    (hk : ∀ e r, fm e = some r → r.1 = e.1) (L : Listing) (id : String)
    (en : String × List PortMatch) (r : String × β)
    (hfind : L.find? (fun e => e.1 == id) = some en) (hr : fm en = some r) :
    lookupA (L.filterMap fm) id = some r.2 := by
  induction L with
  | nil => simp at hfind
  | cons e rest ih =>
    by_cases he : (e.1 == id) = true
    · rw [List.find?_cons, he] at hfind
      have hen : e = en := by simpa using hfind
      subst hen
      rw [List.filterMap_cons, hr]
      have hr1 : r.1 = e.1 := hk e r hr
      unfold lookupA
      rw [List.find?_cons]
      have : (r.1 == id) = true := by rw [hr1]; exact he
      rw [this]
      rfl
    · have he' : (e.1 == id) = false := by simpa using he
      rw [List.find?_cons, he'] at hfind
      rw [List.filterMap_cons]
      cases hfm : fm e with
      | none => exact ih hfind
      | some r' =>
        have hr1 : r'.1 = e.1 := hk e r' hfm
        have hne : (r'.1 == id) = false := by rw [hr1]; exact he'
        unfold lookupA at ih ⊢
        rw [List.find?_cons, hne]
        exact ih hfind

/-- One-binding view of `restorePortMappings`: what the restore loop
produces for a single match. -/
def restoreOne (storedMappings : List (String × String)) (m : PortMatch) : PortMapping :=
  match lookupA storedMappings (mkPortKey m.cport m.proto) with
  | some storedPort =>
    if storedPort ≠ m.host then ⟨m.cport, storedPort, m.proto, m.host⟩
    else ⟨m.cport, m.host, m.proto, m.host⟩
  | none => ⟨m.cport, m.host, m.proto, m.host⟩

theorem restorePortMappings_fst (matchList : List PortMatch)
    (stored : List (String × String)) :
    (restorePortMappings matchList stored).1 = matchList.map (restoreOne stored) := by
  induction matchList with
  | nil => rfl
  | cons m rest ih =>
    simp only [restorePortMappings, restoreOne, List.map_cons]
    cases hl : lookupA stored (mkPortKey m.cport m.proto) with
    | none => simpa using ih
    | some sp =>
      by_cases hsp : sp ≠ m.host
      · simp only [if_pos hsp]
        simpa using ih
      · simp only [if_neg hsp]
        simpa using ih

theorem restoreOne_containerPort (st : List (String × String)) (m : PortMatch) :
    (restoreOne st m).containerPort = m.cport := by
  unfold restoreOne
  cases lookupA st (mkPortKey m.cport m.proto) with
  | none => rfl
  | some sp =>
    by_cases hsp : sp ≠ m.host
    · simp [hsp]
    · simp [hsp]

theorem restoreOne_protocol (st : List (String × String)) (m : PortMatch) :
    (restoreOne st m).protocol = m.proto := by
  unfold restoreOne
  cases lookupA st (mkPortKey m.cport m.proto) with
  | none => rfl
  | some sp =>
    by_cases hsp : sp ≠ m.host
    · simp [hsp]
    · simp [hsp]

theorem parse_fst_of_none {s : ContainerStore} {labelOf : String → String → String}
    {min max : Int} {cid : String} {matchList : List PortMatch}
    {ex : List (String × List (String × String))}
    (hno : lookupA ex cid = none) :
    (parsePortsWithoutRemapping s labelOf min max cid matchList ex).1 =
      matchList.map fun m => (⟨m.cport, m.host, m.proto, m.host⟩ : PortMapping) := by
  simp only [parsePortsWithoutRemapping, hno]
  by_cases h1 : isContainerProcessedB s labelOf cid = true
  · rw [if_pos h1]
  · rw [if_neg h1]
    by_cases h2 : (decide (matchList ≠ []) && matchList.all (matchInRange min max)) = true
    · rw [if_pos h2]
    · rw [if_neg h2]

theorem parse_of_some {s : ContainerStore} {labelOf : String → String → String}
    {min max : Int} {cid : String} {matchList : List PortMatch}
    {ex : List (String × List (String × String))}
    {stored : List (String × String)}
    (hs : lookupA ex cid = some stored) :
    parsePortsWithoutRemapping s labelOf min max cid matchList ex =
      restorePortMappings matchList stored := by
  unfold parsePortsWithoutRemapping
  rw [hs]

/-- The container-record builder of `refreshContainersOk`. -/
def refreshEntryContainer (s : ContainerStore) (labelOf : String → String → String)
    (min max : Int) (e : String × List PortMatch) : Container :=
  ⟨e.1, (parsePortsWithoutRemapping s labelOf min max e.1 e.2 s.portMappings).1,
   (parsePortsWithoutRemapping s labelOf min max e.1 e.2 s.portMappings).2⟩

/-- The port-mapping builder of `refreshContainersOk`. -/
def refreshEntryMappings (s : ContainerStore) (labelOf : String → String → String)
    (min max : Int) (e : String × List PortMatch) :
    Option (String × List (String × String)) :=
  let pr := parsePortsWithoutRemapping s labelOf min max e.1 e.2 s.portMappings
  if pr.1 ≠ [] then
    some (e.1, pr.1.map fun pm => (mkPortKey pm.containerPort pm.protocol, pm.hostPort))
  else none

theorem refreshContainersOk_containers (s : ContainerStore)
    (labelOf : String → String → String) (min max : Int) (L : Listing) :
    (refreshContainersOk s labelOf min max L).containers =
      L.map (refreshEntryContainer s labelOf min max) := rfl

theorem refreshContainersOk_portMappings (s : ContainerStore)
    (labelOf : String → String → String) (min max : Int) (L : Listing) :
    (refreshContainersOk s labelOf min max L).portMappings =
      L.filterMap (refreshEntryMappings s labelOf min max) := rfl

theorem refreshEntryMappings_key (s : ContainerStore)
    (labelOf : String → String → String) (min max : Int)
    (e : String × List PortMatch) (r : String × List (String × String))
    (hr : refreshEntryMappings s labelOf min max e = some r) : r.1 = e.1 := by
  simp only [refreshEntryMappings] at hr
  split at hr
  · cases hr; rfl
  · cases hr

theorem getContainer_refresh (s : ContainerStore) (labelOf : String → String → String)
    (min max : Int) (L : Listing) (id : String) :
    getContainer (refreshContainersOk s labelOf min max L) id =
      (L.find? fun e => e.1 == id).map (refreshEntryContainer s labelOf min max) := by
  unfold getContainer
  rw [refreshContainersOk_containers]
  exact find?_map_pred _ _ _

theorem lookupA_pm_map (pms : List PortMapping) (key : String) :
    lookupA (pms.map fun pm => (mkPortKey pm.containerPort pm.protocol, pm.hostPort)) key =
      (pms.find? fun pm => mkPortKey pm.containerPort pm.protocol == key).map
        PortMapping.hostPort := by
  exact lookupA_map_eq_find _ _ _

/-- A match found in the entry of a freshly-seen container (no prior stored
mapping) yields a binding with `original = current =` the observed host
port, and the new stored mapping records that port. -/
theorem refresh_binding_first {s : ContainerStore} {labelOf : String → String → String}
    {min max : Int} {L : Listing} {id key c q h : String} {ms : List PortMatch}
    (hfind : L.find? (fun e => e.1 == id) = some (id, ms))
    (hm : ms.find? (fun m => mkPortKey m.cport m.proto == key) = some ⟨h, c, q⟩)
    (hno : lookupA s.portMappings id = none) :
    getBinding (refreshContainersOk s labelOf min max L) id key = some ⟨c, h, q, h⟩ ∧
    lookup2 (refreshContainersOk s labelOf min max L).portMappings id key = some h := by
  have hparse : (parsePortsWithoutRemapping s labelOf min max id ms s.portMappings).1 =
      ms.map fun m => (⟨m.cport, m.host, m.proto, m.host⟩ : PortMapping) :=
    parse_fst_of_none hno
  have hfound : (ms.map fun m => (⟨m.cport, m.host, m.proto, m.host⟩ : PortMapping)).find?
      (fun pm => mkPortKey pm.containerPort pm.protocol == key) = some ⟨c, h, q, h⟩ := by
    rw [find?_map_pred]
    rw [show (fun m => mkPortKey (⟨m.cport, m.host, m.proto, m.host⟩ :
        PortMapping).containerPort (⟨m.cport, m.host, m.proto, m.host⟩ :
        PortMapping).protocol == key) = fun m : PortMatch =>
        mkPortKey m.cport m.proto == key from rfl]
    rw [hm]
    rfl
  constructor
  · unfold getBinding
    rw [getContainer_refresh, hfind]
    simp only [Option.map_some']
    show ((refreshEntryContainer s labelOf min max (id, ms)).portMappings).find? _ = _
    unfold refreshEntryContainer
    simp only
    rw [hparse]
    exact hfound
  · rw [refreshContainersOk_portMappings]
    have hms_ne : ms ≠ [] :=
      List.ne_nil_of_mem (List.mem_of_find?_eq_some hm)
    have hpms_ne : (parsePortsWithoutRemapping s labelOf min max id ms s.portMappings).1 ≠ [] := by
      rw [hparse]
      simpa using hms_ne
    have hfm : refreshEntryMappings s labelOf min max (id, ms) =
        some (id, (parsePortsWithoutRemapping s labelOf min max id ms s.portMappings).1.map
          fun pm => (mkPortKey pm.containerPort pm.protocol, pm.hostPort)) := by
      unfold refreshEntryMappings
      simp only [if_pos hpms_ne]
    unfold lookup2
    rw [lookupA_filterMap (refreshEntryMappings s labelOf min max)
      (refreshEntryMappings_key s labelOf min max) L id (id, ms) _ hfind hfm]
    show lookupA ((parsePortsWithoutRemapping s labelOf min max id ms
      s.portMappings).1.map fun pm =>
        (mkPortKey pm.containerPort pm.protocol, pm.hostPort)) key = some h
    rw [lookupA_pm_map, hparse, hfound]
    rfl

/-- A match found in the entry of a container whose stored mapping for the
key equals the observed host port is restored with
`original = current =` that port, and the stored mapping is carried over. -/
theorem refresh_binding_again {s : ContainerStore} {labelOf : String → String → String}
    {min max : Int} {L : Listing} {id key c q h : String} {ms : List PortMatch}
    (hfind : L.find? (fun e => e.1 == id) = some (id, ms))
    (hm : ms.find? (fun m => mkPortKey m.cport m.proto == key) = some ⟨h, c, q⟩)
    (hst : lookup2 s.portMappings id key = some h) :
    getBinding (refreshContainersOk s labelOf min max L) id key = some ⟨c, h, q, h⟩ ∧
    lookup2 (refreshContainersOk s labelOf min max L).portMappings id key = some h := by
  have hkey : mkPortKey c q = key := by
    have := List.find?_some hm
    simpa using this
  obtain ⟨stored, hsome, hsk⟩ : ∃ stored, lookupA s.portMappings id = some stored ∧
      lookupA stored key = some h := by
    unfold lookup2 at hst
    cases hl : lookupA s.portMappings id with
    | none => rw [hl] at hst; cases hst
    | some stored => rw [hl] at hst; exact ⟨stored, rfl, hst⟩
  have hparse : parsePortsWithoutRemapping s labelOf min max id ms s.portMappings =
      restorePortMappings ms stored := parse_of_some hsome
  have hro : restoreOne stored ⟨h, c, q⟩ = ⟨c, h, q, h⟩ := by
    unfold restoreOne
    simp only [hkey, hsk]
    simp
  have hfound : (restorePortMappings ms stored).1.find?
      (fun pm => mkPortKey pm.containerPort pm.protocol == key) = some ⟨c, h, q, h⟩ := by
    rw [restorePortMappings_fst, find?_map_pred]
    have hpred : (fun m => mkPortKey (restoreOne stored m).containerPort
        (restoreOne stored m).protocol == key) =
        fun m : PortMatch => mkPortKey m.cport m.proto == key := by
      funext m
      rw [restoreOne_containerPort, restoreOne_protocol]
    rw [hpred, hm, Option.map_some', hro]
  constructor
  · unfold getBinding
    rw [getContainer_refresh, hfind]
    simp only [Option.map_some']
    show ((refreshEntryContainer s labelOf min max (id, ms)).portMappings).find? _ = _
    unfold refreshEntryContainer
    simp only
    rw [hparse]
    exact hfound
  · rw [refreshContainersOk_portMappings]
    have hms_ne : ms ≠ [] :=
      List.ne_nil_of_mem (List.mem_of_find?_eq_some hm)
    have hpms_ne : (parsePortsWithoutRemapping s labelOf min max id ms s.portMappings).1 ≠ [] := by
      rw [hparse, restorePortMappings_fst]
      simpa using hms_ne
    have hfm : refreshEntryMappings s labelOf min max (id, ms) =
        some (id, (parsePortsWithoutRemapping s labelOf min max id ms s.portMappings).1.map
          fun pm => (mkPortKey pm.containerPort pm.protocol, pm.hostPort)) := by
      unfold refreshEntryMappings
      simp only [if_pos hpms_ne]
    unfold lookup2
    rw [lookupA_filterMap (refreshEntryMappings s labelOf min max)
      (refreshEntryMappings_key s labelOf min max) L id (id, ms) _ hfind hfm]
    show lookupA ((parsePortsWithoutRemapping s labelOf min max id ms
      s.portMappings).1.map fun pm =>
        (mkPortKey pm.containerPort pm.protocol, pm.hostPort)) key = some h
    rw [lookupA_pm_map, hparse, hfound]
    rfl

/-- A sequence of successful refreshes, applied in order. -/
def applyRefreshes (s : ContainerStore) (labelOf : String → String → String)
    (min max : Int) (ls : List Listing) : ContainerStore :=
  ls.foldl (fun st l => refreshContainersOk st labelOf min max l) s

/-- Claim C2 (amended): for a container id and binding key
`<container-port>/<proto>` first observed during a refresh sequence, the
binding's `original` host port equals its first-observed value and never
mutates across the sequence, provided every listing of the sequence
reports the same host port for that id and key (which the runtime
guarantees: a container's bindings are fixed for its lifetime).  Without
that proviso the property fails: refresh retains the prior *current*
host port per key and resets `original` to the newly observed port, so a
changed observation mutates `original` (see the counterexample). -/
theorem claim_C2 (s : ContainerStore) (labelOf : String → String → String)
    (min max : Int) (id key c q h : String) (ls : List Listing)
    (hno : lookupA s.portMappings id = none)
    (hls : ∀ L ∈ ls, ∃ ms, L.find? (fun e => e.1 == id) = some (id, ms) ∧
      ms.find? (fun m => mkPortKey m.cport m.proto == key) = some ⟨h, c, q⟩) :
    ∀ p, List.IsPrefix p ls → p ≠ [] →
      getBinding (applyRefreshes s labelOf min max p) id key = some ⟨c, h, q, h⟩ := by
  have main : ∀ p, List.IsPrefix p ls → p ≠ [] →
      getBinding (applyRefreshes s labelOf min max p) id key = some ⟨c, h, q, h⟩ ∧
      lookup2 (applyRefreshes s labelOf min max p).portMappings id key = some h := by
    intro p
    induction p using List.reverseRecOn with
    | nil => intro _ hne; exact absurd rfl hne
    | append_singleton p' L ih =>
      intro hpref _
      have hpref' : List.IsPrefix p' ls := by
        obtain ⟨t, ht⟩ := hpref
        exact ⟨L :: t, by simpa [List.append_assoc] using ht⟩
      have hLmem : L ∈ ls := by
        obtain ⟨t, ht⟩ := hpref
        rw [← ht]
        simp
      obtain ⟨ms, hfind, hm⟩ := hls L hLmem
      have happ : applyRefreshes s labelOf min max (p' ++ [L]) =
          refreshContainersOk (applyRefreshes s labelOf min max p') labelOf min max L := by
        simp [applyRefreshes, List.foldl_append]
      rcases eq_or_ne p' [] with hp' | hp'
      · subst hp'
        rw [happ]
        exact refresh_binding_first hfind hm hno
      · obtain ⟨_, hl2⟩ := ih hpref' hp'
        rw [happ]
        exact refresh_binding_again hfind hm hl2
  exact fun p hp hne => (main p hp hne).1

def emptyStore : ContainerStore := ⟨[], [], []⟩

def noLabels : String → String → String := fun _ _ => ""

/-- Witness for C2: two refreshes both listing container `a` with
`7777->80/tcp`; the binding keeps `original = current = 7777`. -/
theorem claim_C2_witness :
    getBinding (applyRefreshes emptyStore noLabels 10000 65000
        [[("a", [⟨"7777", "80", "tcp"⟩])], [("a", [⟨"7777", "80", "tcp"⟩])]])
      "a" "80/tcp" = some ⟨"80", "7777", "tcp", "7777"⟩ := by
  refine claim_C2 emptyStore noLabels 10000 65000 "a" "80/tcp" "80" "tcp" "7777"
    [[("a", [⟨"7777", "80", "tcp"⟩])], [("a", [⟨"7777", "80", "tcp"⟩])]]
    rfl ?_ _ (List.prefix_refl _) (by simp)
  intro L hL
  have hL' : L = [("a", [(⟨"7777", "80", "tcp"⟩ : PortMatch)])] := by
    simpa using (by simpa using hL : L = [("a", [(⟨"7777", "80", "tcp"⟩ : PortMatch)])] ∨
      L = [("a", [(⟨"7777", "80", "tcp"⟩ : PortMatch)])])
  subst hL'
  exact ⟨[⟨"7777", "80", "tcp"⟩], rfl, rfl⟩

/-- Counterexample for claim C2 as stated: container `a` is listed with
host port `8080` for key `80/tcp`, then with `9090`.  After the second
refresh the binding is `⟨80, 8080, tcp, 9090⟩`: `original` has mutated
from `8080` to the newly observed `9090` (and `current` kept the prior
stored `8080`) — refresh does not retain the prior `original`. -/
theorem claim_C2_counterexample :
    getBinding (refreshContainersOk emptyStore noLabels 10000 65000
        [("a", [⟨"8080", "80", "tcp"⟩])]) "a" "80/tcp" =
      some ⟨"80", "8080", "tcp", "8080"⟩ ∧
    getBinding (refreshContainersOk (refreshContainersOk emptyStore noLabels 10000 65000
        [("a", [⟨"8080", "80", "tcp"⟩])]) noLabels 10000 65000
        [("a", [⟨"9090", "80", "tcp"⟩])]) "a" "80/tcp" =
      some ⟨"80", "8080", "tcp", "9090"⟩ := by
  exact ⟨rfl, rfl⟩

/-! ### Start-handler decision lemmas -/

theorem allocLoop_isSome {s : ContainerStore} {min max : Int} {listen : Int → Bool}
    {draws : Nat → Nat} (h : min < max) :
    ∀ fuel i, ∃ pr, allocLoop s min max listen draws i fuel = some pr := by
  have hn : ¬ (max - min ≤ 0) := by omega
  intro fuel
  induction fuel with
  | zero =>
    intro i
    exact ⟨((draws i : Int) % (max - min) + min, i + 1), by simp [allocLoop, intn, hn]⟩
  | succ n ih =>
    intro i
    by_cases hav : isPortAvailable s listen ((draws i : Int) % (max - min) + min) = true
    · exact ⟨((draws i : Int) % (max - min) + min, i + 1), by
        simp only [allocLoop, intn, if_neg hn]
        rw [if_pos hav]⟩
    · obtain ⟨pr, hpr⟩ := ih (i + 1)
      exact ⟨pr, by
        simp only [allocLoop, intn, if_neg hn]
        rw [if_neg hav]
        exact hpr⟩

/-- The remap decision of `checkPortCollision` for a numeric host port:
in `[min, max]` remap iff another container holds the pair; outside the
range remap unconditionally. -/
def needsRemapB (s : ContainerStore) (min max : Int) (cid : String) (p : Int)
    (proto : String) : Bool :=
  if min ≤ p && p ≤ max then isPortUsedByOtherContainer s cid p proto else true

theorem checkPortCollision_isSome {s : ContainerStore} {min max : Int}
    {listen : Int → Bool} {draws : Nat → Nat} (h : min < max)
    (idx : Nat) (cid hostPort proto : String) :
    ∃ r, checkPortCollision s min max listen draws idx cid hostPort proto = some r := by
  unfold checkPortCollision
  cases goAtoi hostPort with
  | none => exact ⟨(false, hostPort, idx), rfl⟩
  | some p =>
    dsimp only
    by_cases hin : (decide (min ≤ p) && decide (p ≤ max)) = true
    · rw [if_pos hin]
      by_cases hused : isPortUsedByOtherContainer s cid p proto = true
      · rw [if_pos hused]
        obtain ⟨⟨np, idx'⟩, halloc⟩ := allocLoop_isSome h 100 idx
        exact ⟨(true, toString np, idx'), by
          rw [show allocateRandomPort s min max listen draws idx = some (np, idx')
            from halloc]
          rfl⟩
      · rw [if_neg hused]
        exact ⟨(false, hostPort, idx), rfl⟩
    · rw [if_neg hin]
      obtain ⟨⟨np, idx'⟩, halloc⟩ := allocLoop_isSome h 100 idx
      exact ⟨(true, toString np, idx'), by
        rw [show allocateRandomPort s min max listen draws idx = some (np, idx')
          from halloc]
        rfl⟩

theorem checkPortCollision_fst {s : ContainerStore} {min max : Int}
    {listen : Int → Bool} {draws : Nat → Nat} {idx : Nat}
    {cid hostPort proto : String} {p : Int} {b : Bool} {np : String} {idx' : Nat}
    (hp : goAtoi hostPort = some p)
    (hcc : checkPortCollision s min max listen draws idx cid hostPort proto =
      some (b, np, idx')) :
    b = needsRemapB s min max cid p proto := by
  unfold checkPortCollision at hcc
  rw [hp] at hcc
  dsimp only at hcc
  unfold needsRemapB
  by_cases hin : (decide (min ≤ p) && decide (p ≤ max)) = true
  · rw [if_pos hin] at hcc
    rw [if_pos (by simpa using hin)]
    by_cases hused : isPortUsedByOtherContainer s cid p proto = true
    · rw [if_pos hused] at hcc
      rw [hused]
      cases halloc : allocateRandomPort s min max listen draws idx with
      | none => rw [halloc] at hcc; cases hcc
      | some pr => rw [halloc] at hcc; cases hcc; rfl
    · rw [if_neg hused] at hcc
      cases hcc
      simpa using hused
  · rw [if_neg hin] at hcc
    rw [if_neg (by simpa using hin)]
    cases halloc : allocateRandomPort s min max listen draws idx with
    | none => rw [halloc] at hcc; cases hcc
    | some pr => rw [halloc] at hcc; cases hcc; rfl

theorem needsRemapB_iff (s : ContainerStore) (min max : Int) (cid : String)
    (p : Int) (proto : String) :
    needsRemapB s min max cid p proto = true ↔
      ((min ≤ p ∧ p ≤ max ∧ isPortUsedByOtherContainer s cid p proto = true) ∨
        ¬ (min ≤ p ∧ p ≤ max)) := by
  unfold needsRemapB
  by_cases hin : (decide (min ≤ p) && decide (p ≤ max)) = true
  · rw [if_pos hin]
    have hin' : min ≤ p ∧ p ≤ max := by simpa using hin
    constructor
    · intro hu
      exact Or.inl ⟨hin'.1, hin'.2, hu⟩
    · intro hor
      rcases hor with ⟨_, _, hu⟩ | habs
      · exact hu
      · exact absurd hin' habs
  · rw [if_neg hin]
    have hin' : ¬ (min ≤ p ∧ p ≤ max) := by simpa using hin
    simp [hin']

theorem computePortsToRemap_isSome {s : ContainerStore} {min max : Int}
    {listen : Int → Bool} {draws : Nat → Nat} {cid : String} (h : min < max) :
    ∀ (bs : HCBindings) (idx : Nat), ∃ res,
      computePortsToRemap s min max listen draws cid bs idx = some res := by
  intro bs
  induction bs with
  | nil => exact fun idx => ⟨([], idx), rfl⟩
  | cons b rest ih =>
    intro idx
    obtain ⟨key, hp⟩ := b
    by_cases hhp : (hp == "") = true
    · obtain ⟨res, hres⟩ := ih idx
      exact ⟨res, by simp only [computePortsToRemap, if_pos hhp]; exact hres⟩
    · by_cases hlen : (goSplit '/' key).length = 2
      · obtain ⟨⟨b', np, idx2⟩, hcc⟩ :=
          @checkPortCollision_isSome s min max listen draws h idx cid hp
            ((goSplit '/' key).getD 1 "")
        obtain ⟨⟨tl, idxF⟩, hrest⟩ := ih idx2
        refine ⟨((if b' then [(key, np)] else []) ++ tl, idxF), ?_⟩
        simp only [computePortsToRemap, if_neg hhp, if_pos hlen, hcc, hrest]
      · obtain ⟨res, hres⟩ := ih idx
        exact ⟨res, by
          simp only [computePortsToRemap, if_neg hhp, if_neg hlen]
          exact hres⟩

theorem computePortsToRemap_keys_sub {s : ContainerStore} {min max : Int}
    {listen : Int → Bool} {draws : Nat → Nat} {cid : String} :
    ∀ (bs : HCBindings) (idx : Nat) (lst : List (String × String)) (i' : Nat),
      computePortsToRemap s min max listen draws cid bs idx = some (lst, i') →
      ∀ k, k ∈ lst.map Prod.fst → k ∈ bs.map Prod.fst := by
  intro bs
  induction bs with
  | nil =>
    intro idx lst i' hcomp k hk
    simp only [computePortsToRemap, Option.some.injEq, Prod.mk.injEq] at hcomp
    rw [← hcomp.1] at hk
    simp at hk
  | cons b rest ih =>
    intro idx lst i' hcomp k hk
    obtain ⟨key, hp⟩ := b
    by_cases hhp : (hp == "") = true
    · rw [show computePortsToRemap s min max listen draws cid ((key, hp) :: rest) idx =
          computePortsToRemap s min max listen draws cid rest idx by
        simp only [computePortsToRemap, if_pos hhp]] at hcomp
      exact List.mem_cons_of_mem _ (ih idx lst i' hcomp k hk)
    · by_cases hlen : (goSplit '/' key).length = 2
      · simp only [computePortsToRemap, if_neg hhp, if_pos hlen] at hcomp
        cases hcc : checkPortCollision s min max listen draws idx cid hp
            ((goSplit '/' key).getD 1 "") with
        | none => rw [hcc] at hcomp; cases hcomp
        | some r =>
          obtain ⟨b', np, idx2⟩ := r
          rw [hcc] at hcomp
          dsimp only at hcomp
          cases hrest : computePortsToRemap s min max listen draws cid rest idx2 with
          | none => rw [hrest] at hcomp; cases hcomp
          | some res =>
            obtain ⟨tl, idxF⟩ := res
            rw [hrest] at hcomp
            dsimp only at hcomp
            cases hcomp
            rw [List.map_append] at hk
            rcases List.mem_append.mp hk with hk1 | hk2
            · cases b' with
              | true =>
                simp at hk1
                simp [hk1]
              | false => simp at hk1
            · exact List.mem_cons_of_mem _ (ih idx2 tl i' hrest k hk2)
      · rw [show computePortsToRemap s min max listen draws cid ((key, hp) :: rest) idx =
            computePortsToRemap s min max listen draws cid rest idx by
          simp only [computePortsToRemap, if_neg hhp, if_neg hlen]] at hcomp
        exact List.mem_cons_of_mem _ (ih idx lst i' hcomp k hk)

theorem computePortsToRemap_mem {s : ContainerStore} {min max : Int}
    {listen : Int → Bool} {draws : Nat → Nat} {cid : String} (h : min < max) :
    ∀ (bs : HCBindings) (idx : Nat) (lst : List (String × String)) (i' : Nat),
      computePortsToRemap s min max listen draws cid bs idx = some (lst, i') →
      (bs.map Prod.fst).Nodup →
      ∀ key hp c q p, (key, hp) ∈ bs → hp ≠ "" → goSplit '/' key = [c, q] →
        goAtoi hp = some p →
        ((key ∈ lst.map Prod.fst) ↔ needsRemapB s min max cid p q = true) := by
  intro bs
  induction bs with
  | nil =>
    intro idx lst i' _ _ key hp c q p hmem
    simp at hmem
  | cons b rest ih =>
    intro idx lst i' hcomp hnd key hp c q p hmem hne hsplit hatoi
    obtain ⟨k0, hp0⟩ := b
    have hnd_tail : (rest.map Prod.fst).Nodup := (List.nodup_cons.mp hnd).2
    have hk0_not : k0 ∉ rest.map Prod.fst := (List.nodup_cons.mp hnd).1
    by_cases hhp : (hp0 == "") = true
    · have hskip : computePortsToRemap s min max listen draws cid ((k0, hp0) :: rest) idx =
          computePortsToRemap s min max listen draws cid rest idx := by
        simp only [computePortsToRemap, if_pos hhp]
      rw [hskip] at hcomp
      rcases List.mem_cons.mp hmem with hhead | htail
      · cases hhead
        exact absurd (by simpa using hhp) hne
      · exact ih idx lst i' hcomp hnd_tail key hp c q p htail hne hsplit hatoi
    · by_cases hlen : (goSplit '/' k0).length = 2
      · simp only [computePortsToRemap, if_neg hhp, if_pos hlen] at hcomp
        cases hcc : checkPortCollision s min max listen draws idx cid hp0
            ((goSplit '/' k0).getD 1 "") with
        | none => rw [hcc] at hcomp; cases hcomp
        | some r =>
          obtain ⟨b', np, idx2⟩ := r
          rw [hcc] at hcomp
          dsimp only at hcomp
          cases hrest : computePortsToRemap s min max listen draws cid rest idx2 with
          | none => rw [hrest] at hcomp; cases hcomp
          | some res =>
            obtain ⟨tl, idxF⟩ := res
            rw [hrest] at hcomp
            dsimp only at hcomp
            cases hcomp
            rcases List.mem_cons.mp hmem with hhead | htail
            · cases hhead
              have hb' : b' = needsRemapB s min max cid p q := by
                have := checkPortCollision_fst hatoi hcc
                rw [hsplit] at this
                simpa using this
              have hnot_tl : key ∉ tl.map Prod.fst := by
                intro hmem_tl
                exact hk0_not (computePortsToRemap_keys_sub rest idx2 tl i' hrest key hmem_tl)
              rw [List.map_append]
              constructor
              · intro hk
                rcases List.mem_append.mp hk with hk1 | hk2
                · cases b' with
                  | true => exact hb' ▸ rfl
                  | false => simp at hk1
                · exact absurd hk2 hnot_tl
              · intro hneed
                apply List.mem_append.mpr
                left
                rw [← hb'] at hneed
                rw [hneed]
                simp
            · have hkey_ne : key ≠ k0 := by
                intro he
                apply hk0_not
                rw [← he]
                exact List.mem_map_of_mem Prod.fst htail
              have htl := ih idx2 tl i' hrest hnd_tail key hp c q p htail hne hsplit hatoi
              rw [List.map_append]
              constructor
              · intro hk
                rcases List.mem_append.mp hk with hk1 | hk2
                · cases b' with
                  | true =>
                    simp at hk1
                    exact absurd hk1 hkey_ne
                  | false => simp at hk1
                · exact htl.mp hk2
              · intro hneed
                exact List.mem_append.mpr (Or.inr (htl.mpr hneed))
      · have hskip : computePortsToRemap s min max listen draws cid ((k0, hp0) :: rest) idx =
            computePortsToRemap s min max listen draws cid rest idx := by
          simp only [computePortsToRemap, if_neg hhp, if_neg hlen]
        rw [hskip] at hcomp
        rcases List.mem_cons.mp hmem with hhead | htail
        · cases hhead
          rw [hsplit] at hlen
          simp at hlen
        · exact ih idx lst i' hcomp hnd_tail key hp c q p htail hne hsplit hatoi

theorem mem_addDynamicPortLabel_self (s : ContainerStore) (cid : String) :
    cid ∈ (addDynamicPortLabel s cid).processed := by
  unfold addDynamicPortLabel
  by_cases hc : cid ∈ s.processed
  · rw [if_pos hc]; exact hc
  · rw [if_neg hc]; simp

theorem mem_addDynamicPortLabel_of (s : ContainerStore) (cid id : String)
    (hid : id ∈ s.processed) : id ∈ (addDynamicPortLabel s cid).processed := by
  unfold addDynamicPortLabel
  by_cases hc : cid ∈ s.processed
  · rw [if_pos hc]; exact hid
  · rw [if_neg hc]; simp [hid]

theorem processed_mem_refreshOk (s : ContainerStore)
    (labelOf : String → String → String) (min max : Int) (L : Listing) (cid : String)
    (hmem : cid ∈ s.processed) (hlisted : cid ∈ L.map Prod.fst) :
    cid ∈ (refreshContainersOk s labelOf min max L).processed := by
  show cid ∈ (L.map Prod.fst).filter fun id => id ∈ s.processed
  apply List.mem_filter.mpr
  exact ⟨hlisted, by simpa using hmem⟩

theorem isContainerProcessedM_of_false {s : ContainerStore}
    {labelOf : String → String → String} {cid : String}
    (hb : isContainerProcessedB s labelOf cid = false) :
    isContainerProcessedM s labelOf cid = (false, s) := by
  unfold isContainerProcessedB at hb
  unfold isContainerProcessedM
  rcases Bool.or_eq_false_iff.mp hb with ⟨h1, h2⟩
  rw [if_neg (by simpa using h1), if_neg (by simpa using h2)]

/-- Claim C4: when the Reconciler handles a start event for a container
not yet processed: if every bound host port lies within `[min, max]`
(and the container has bindings), it marks the container processed and
issues no relocation; otherwise each well-formed binding with numeric host
port `p` and protocol `q` is scheduled for relocation iff either `p` is in
`[min, max]` and some other tracked container holds `(p, q)`, or `p` is
outside `[min, max]`, in which case relocation is unconditional. -/
theorem claim_C4 :
    (∀ (s : ContainerStore) (min max : Int) (cid : String)
       (labelOf : String → String → String) (bs : HCBindings)
       (listen : Int → Bool) (draws : Nat → Nat) (newIds : Nat → String)
       (remapOk : Nat → Bool) (entries : Listing),
       isContainerProcessedB s labelOf cid = false →
       bs ≠ [] →
       allInDynamicRange min max bs = true →
       cid ∈ entries.map Prod.fst →
       ∃ s', handleContainerStart s min max cid labelOf (some bs) listen draws
           newIds remapOk (.ok entries) = some (s', []) ∧ cid ∈ s'.processed) ∧
    (∀ (s : ContainerStore) (min max : Int) (cid : String) (listen : Int → Bool)
       (draws : Nat → Nat) (bs : HCBindings) (idx : Nat)
       (lst : List (String × String)) (i' : Nat),
       min < max →
       computePortsToRemap s min max listen draws cid bs idx = some (lst, i') →
       (bs.map Prod.fst).Nodup →
       ∀ key hp c q p, (key, hp) ∈ bs → hp ≠ "" → goSplit '/' key = [c, q] →
         goAtoi hp = some p →
         ((key ∈ lst.map Prod.fst) ↔
           ((min ≤ p ∧ p ≤ max ∧ isPortUsedByOtherContainer s cid p q = true) ∨
             ¬ (min ≤ p ∧ p ≤ max)))) := by
  constructor
  · intro s min max cid labelOf bs listen draws newIds remapOk entries
      hproc hne hall hlisted
    have hM : isContainerProcessedM s labelOf cid = (false, s) :=
      isContainerProcessedM_of_false hproc
    have hempty : bs.isEmpty = false := by
      cases bs with
      | nil => exact absurd rfl hne
      | cons x xs => rfl
    refine ⟨refreshContainersOk (addDynamicPortLabel s cid) labelOf min max entries,
      ?_, ?_⟩
    · unfold handleContainerStart
      rw [hM]
      dsimp only
      rw [if_neg (by simp)]
      rw [hempty]
      rw [if_neg (by simp), if_pos hall]
      rfl
    · exact processed_mem_refreshOk _ labelOf min max entries cid
        (mem_addDynamicPortLabel_self s cid) hlisted
  · intro s min max cid listen draws bs idx lst i' h hcomp hnd key hp c q p
      hmem hne hsplit hatoi
    rw [computePortsToRemap_mem h bs idx lst i' hcomp hnd key hp c q p
      hmem hne hsplit hatoi]
    exact needsRemapB_iff s min max cid p q

/-- Witness for C4: a container with the single binding `12000->80/tcp`
(in range) is marked processed with no recreation, and for an out-of-range
binding `80->80/tcp` the schedule contains the binding's key. -/
theorem claim_C4_witness :
    (∃ s', handleContainerStart emptyStore 10000 65000 "a" noLabels
        (some [("80/tcp", "12000")]) (fun _ => true) (fun _ => 0) (fun _ => "n")
        (fun _ => true) (.ok [("a", [⟨"12000", "80", "tcp"⟩])]) = some (s', []) ∧
      "a" ∈ s'.processed) ∧
    (("80/tcp" ∈ ([("80/tcp", "10000")] : List (String × String)).map Prod.fst) ↔
      ((10000 ≤ (80 : Int) ∧ (80 : Int) ≤ 65000 ∧
          isPortUsedByOtherContainer emptyStore "a" 80 "tcp" = true) ∨
        ¬ (10000 ≤ (80 : Int) ∧ (80 : Int) ≤ 65000))) := by
  constructor
  · exact claim_C4.1 emptyStore 10000 65000 "a" noLabels [("80/tcp", "12000")]
      (fun _ => true) (fun _ => 0) (fun _ => "n") (fun _ => true)
      [("a", [⟨"12000", "80", "tcp"⟩])] rfl (by simp) (by decide) (by decide)
  · exact claim_C4.2 emptyStore 10000 65000 "a" (fun _ => true) (fun _ => 0)
      [("80/tcp", "80")] 0 [("80/tcp", "10000")] 1 (by norm_num) (by decide)
      (by decide) "80/tcp" "80" "80" "tcp" 80 (by decide) (by decide) (by decide)
      (by decide)

theorem isContainerProcessedM_fst (s : ContainerStore)
    (labelOf : String → String → String) (cid : String) :
    (isContainerProcessedM s labelOf cid).1 = isContainerProcessedB s labelOf cid := by
  unfold isContainerProcessedM isContainerProcessedB
  by_cases h1 : cid ∈ s.processed
  · rw [if_pos h1]
    simp [h1]
  · rw [if_neg h1]
    by_cases h2 : (labelOf cid sentinelLabel == "true") = true
    · rw [if_pos h2]
      simp [h1, h2]
    · rw [if_neg h2]
      simp [h1, by simpa using h2]

/-- The processed-container short circuit of `handleContainerStart`
(`container_store.go:977-984`): refresh and return, no inspection, no
recreation. -/
theorem handleStart_processed (s : ContainerStore) (min max : Int) (cid : String)
    (labelOf : String → String → String) (insp : Option HCBindings)
    (listen : Int → Bool) (draws : Nat → Nat) (newIds : Nat → String)
    (remapOk : Nat → Bool) (listing : Except String Listing)
    (hb : isContainerProcessedB s labelOf cid = true) :
    handleContainerStart s min max cid labelOf insp listen draws newIds remapOk listing =
      some ((refreshContainers (isContainerProcessedM s labelOf cid).2
        labelOf min max listing).1, []) := by
  unfold handleContainerStart
  have h1 : (isContainerProcessedM s labelOf cid).1 = true := by
    rw [isContainerProcessedM_fst]; exact hb
  rw [if_pos h1]

/-- Claim C1: once a container id is in the processed set it is never
re-evaluated for relocation — a start event for a processed id only
triggers a refresh and returns, with no recreation; and a remap inserts
both the old id (before acting) and the newly created container's id
(before returning) into the processed set, so a start→remap→start chain
for a container and its replacement performs exactly one recreation in
total. -/
theorem claim_C1 :
    (∀ (s : ContainerStore) (min max : Int) (cid : String)
       (labelOf : String → String → String) (insp : Option HCBindings)
       (listen : Int → Bool) (draws : Nat → Nat) (newIds : Nat → String)
       (remapOk : Nat → Bool) (listing : Except String Listing),
       isContainerProcessedB s labelOf cid = true →
       handleContainerStart s min max cid labelOf insp listen draws newIds remapOk
         listing = some ((refreshContainers (isContainerProcessedM s labelOf cid).2
           labelOf min max listing).1, [])) ∧
    (∀ (s : ContainerStore) (min max : Int) (e : String)
       (labelOf : String → String → String) (key hp c q : String) (p : Int)
       (listen : Int → Bool) (draws : Nat → Nat) (newIds : Nat → String)
       (remapOk : Nat → Bool) (e2 : String) (L : Listing),
       isContainerProcessedB s labelOf e = false →
       min < max →
       hp ≠ "" →
       goSplit '/' key = [c, q] →
       goAtoi hp = some p →
       ¬ (min ≤ p ∧ p ≤ max) →
       newIds 0 = e2 →
       remapOk 0 = true →
       e2 ∈ L.map Prod.fst →
       ∃ s1 recs,
         handleContainerStart s min max e labelOf (some [(key, hp)]) listen draws
           newIds remapOk (.ok L) = some (s1, recs) ∧ recs.length = 1 ∧
         ∀ (insp2 : Option HCBindings) (listen2 : Int → Bool) (draws2 : Nat → Nat)
           (newIds2 : Nat → String) (remapOk2 : Nat → Bool)
           (listing2 : Except String Listing),
           ∃ s2, handleContainerStart s1 min max e2 labelOf insp2 listen2 draws2
             newIds2 remapOk2 listing2 = some (s2, [])) := by
  constructor
  · intro s min max cid labelOf insp listen draws newIds remapOk listing hb
    exact handleStart_processed s min max cid labelOf insp listen draws newIds remapOk
      listing hb
  · intro s min max e labelOf key hp c q p listen draws newIds remapOk e2 L
      hproc h hne hsplit hatoi hrange hid0 hok0 hlisted
    have hM : isContainerProcessedM s labelOf e = (false, s) :=
      isContainerProcessedM_of_false hproc
    have hne' : (hp == "") = false := by simpa using hne
    have hdec : (decide (min ≤ p) && decide (p ≤ max)) = false := by
      rcases Decidable.not_and_iff_or_not.mp hrange with h1 | h1 <;> simp [h1]
    have hall : allInDynamicRange min max [(key, hp)] = false := by
      simp only [allInDynamicRange, List.all_cons, List.all_nil, Bool.and_true]
      rw [hne']
      rw [hatoi]
      simpa using hdec
    have hlen2 : (goSplit '/' key).length = 2 := by rw [hsplit]; rfl
    have hgetq : (goSplit '/' key).getD 1 "" = q := by rw [hsplit]; rfl
    obtain ⟨⟨n, j⟩, halloc⟩ := @allocLoop_isSome s min max listen draws h 100 0
    have halloc' : allocateRandomPort s min max listen draws 0 = some (n, j) := halloc
    have hcc : checkPortCollision s min max listen draws 0 e hp q =
        some (true, toString n, j) := by
      unfold checkPortCollision
      rw [hatoi]
      dsimp only
      rw [if_neg (by simp [hdec])]
      rw [halloc']
      rfl
    have hcomp : computePortsToRemap s min max listen draws e [(key, hp)] 0 =
        some ([(key, toString n)], j) := by
      simp only [computePortsToRemap, if_pos hlen2, hgetq, hcc]
      rw [hne']
      simp
    have hdo : doRemaps [(key, hp)] e newIds remapOk s [(key, toString n)] 0 =
        (addDynamicPortLabel (addDynamicPortLabel s e) e2,
         [⟨e, e2, key, hp, toString n⟩]) := by
      unfold doRemaps remapContainerPortStep
      simp [hok0, hid0, doRemaps]
    have hval : handleContainerStart s min max e labelOf (some [(key, hp)]) listen draws
        newIds remapOk (.ok L) =
        some (refreshContainersOk (addDynamicPortLabel (addDynamicPortLabel s e) e2)
          labelOf min max L, [⟨e, e2, key, hp, toString n⟩]) := by
      unfold handleContainerStart
      rw [hM]
      dsimp only
      rw [if_neg (by simp)]
      rw [show ([(key, hp)] : HCBindings).isEmpty = false from rfl]
      rw [if_neg (by simp), if_neg (by simp [hall])]
      rw [hcomp]
      dsimp only
      rw [if_neg (by simp)]
      rw [hdo]
      rfl
    refine ⟨refreshContainersOk (addDynamicPortLabel (addDynamicPortLabel s e) e2)
      labelOf min max L, [⟨e, e2, key, hp, toString n⟩], hval, rfl, ?_⟩
    intro insp2 listen2 draws2 newIds2 remapOk2 listing2
    have hmem2 : e2 ∈ (refreshContainersOk (addDynamicPortLabel (addDynamicPortLabel s e) e2)
        labelOf min max L).processed :=
      processed_mem_refreshOk _ labelOf min max L e2
        (mem_addDynamicPortLabel_self _ e2) hlisted
    have hb2 : isContainerProcessedB (refreshContainersOk
        (addDynamicPortLabel (addDynamicPortLabel s e) e2) labelOf min max L)
        labelOf e2 = true := by
      unfold isContainerProcessedB
      simp [hmem2]
    exact ⟨_, handleStart_processed _ min max e2 labelOf insp2 listen2 draws2 newIds2
      remapOk2 listing2 hb2⟩

/-- Witness for C1: container `e` with `8080->80/tcp` (out of range) is
remapped once to the replacement `e2`; a second start event for `e2`
performs no recreation, whatever the oracles answer. -/
theorem claim_C1_witness :
    ∃ s1 recs,
      handleContainerStart emptyStore 10000 65000 "e" noLabels
        (some [("80/tcp", "8080")]) (fun _ => true) (fun _ => 0) (fun _ => "e2")
        (fun _ => true) (.ok [("e2", [⟨"10000", "80", "tcp"⟩])]) =
        some (s1, recs) ∧ recs.length = 1 ∧
      ∀ (insp2 : Option HCBindings) (listen2 : Int → Bool) (draws2 : Nat → Nat)
        (newIds2 : Nat → String) (remapOk2 : Nat → Bool)
        (listing2 : Except String Listing),
        ∃ s2, handleContainerStart s1 10000 65000 "e2" noLabels insp2 listen2 draws2
          newIds2 remapOk2 listing2 = some (s2, []) := by
  exact claim_C1.2 emptyStore 10000 65000 "e" noLabels "80/tcp" "8080" "80" "tcp" 8080
    (fun _ => true) (fun _ => 0) (fun _ => "e2") (fun _ => true) "e2"
    [("e2", [⟨"10000", "80", "tcp"⟩])] rfl (by norm_num) (by decide) (by decide)
    (by decide) (by norm_num) rfl rfl (by decide)

theorem addDynamicPortLabel_portMappings (s : ContainerStore) (cid : String) :
    (addDynamicPortLabel s cid).portMappings = s.portMappings := by
  unfold addDynamicPortLabel
  split <;> rfl

/-- Claim C3 (amended): after a relocation triggered by a start event for
container `b` whose binding (container port `c`, protocol `q`) has host
port outside the dynamic range (scenario S2's `8080` with range
`[10000, 65000]`), with the allocator returning `n`, the store contains
the replacement container under its new id with a binding whose current
host port is `n ∈ [min, max]` and whose `original` equals `n` — not the
pre-relocation port — and no longer contains the replaced container. -/
theorem claim_C3 (s : ContainerStore) (min max : Int) (b : String)
    (labelOf : String → String → String) (key hp c q : String) (p : Int)
    (listen : Int → Bool) (draws : Nat → Nat) (newIds : Nat → String)
    (remapOk : Nat → Bool) (b2 : String) (L : Listing) (n : Int) (j : Nat)
    (hproc : isContainerProcessedB s labelOf b = false)
    (h : min < max)
    (hne : hp ≠ "")
    (hsplit : goSplit '/' key = [c, q])
    (hkey : mkPortKey c q = key)
    (hatoi : goAtoi hp = some p)
    (hrange : ¬ (min ≤ p ∧ p ≤ max))
    (hid0 : newIds 0 = b2) (hok0 : remapOk 0 = true)
    (halloc : allocateRandomPort s min max listen draws 0 = some (n, j))
    (hfind : L.find? (fun en => en.1 == b2) = some (b2, [⟨toString n, c, q⟩]))
    (hb2fresh : lookupA s.portMappings b2 = none)
    (hbabsent : ∀ en ∈ L, en.1 ≠ b) :
    ∃ s1, handleContainerStart s min max b labelOf (some [(key, hp)]) listen draws
        newIds remapOk (.ok L) = some (s1, [⟨b, b2, key, hp, toString n⟩]) ∧
      getBinding s1 b2 key = some ⟨c, toString n, q, toString n⟩ ∧
      getContainer s1 b = none ∧
      min ≤ n ∧ n ≤ max := by
  have hM : isContainerProcessedM s labelOf b = (false, s) :=
    isContainerProcessedM_of_false hproc
  have hne' : (hp == "") = false := by simpa using hne
  have hdec : (decide (min ≤ p) && decide (p ≤ max)) = false := by
    rcases Decidable.not_and_iff_or_not.mp hrange with h1 | h1 <;> simp [h1]
  have hall : allInDynamicRange min max [(key, hp)] = false := by
    simp only [allInDynamicRange, List.all_cons, List.all_nil, Bool.and_true]
    rw [hne']
    rw [hatoi]
    simpa using hdec
  have hlen2 : (goSplit '/' key).length = 2 := by rw [hsplit]; rfl
  have hgetq : (goSplit '/' key).getD 1 "" = q := by rw [hsplit]; rfl
  have hcc : checkPortCollision s min max listen draws 0 b hp q =
      some (true, toString n, j) := by
    unfold checkPortCollision
    rw [hatoi]
    dsimp only
    rw [if_neg (by simp [hdec])]
    rw [halloc]
    rfl
  have hcomp : computePortsToRemap s min max listen draws b [(key, hp)] 0 =
      some ([(key, toString n)], j) := by
    simp only [computePortsToRemap, if_pos hlen2, hgetq, hcc]
    rw [hne']
    simp
  have hdo : doRemaps [(key, hp)] b newIds remapOk s [(key, toString n)] 0 =
      (addDynamicPortLabel (addDynamicPortLabel s b) b2,
       [⟨b, b2, key, hp, toString n⟩]) := by
    unfold doRemaps remapContainerPortStep
    simp [hok0, hid0, doRemaps]
  have hval : handleContainerStart s min max b labelOf (some [(key, hp)]) listen draws
      newIds remapOk (.ok L) =
      some (refreshContainersOk (addDynamicPortLabel (addDynamicPortLabel s b) b2)
        labelOf min max L, [⟨b, b2, key, hp, toString n⟩]) := by
    unfold handleContainerStart
    rw [hM]
    dsimp only
    rw [if_neg (by simp)]
    rw [show ([(key, hp)] : HCBindings).isEmpty = false from rfl]
    rw [if_neg (by simp), if_neg (by simp [hall])]
    rw [hcomp]
    dsimp only
    rw [if_neg (by simp)]
    rw [hdo]
    rfl
  set s2pre := addDynamicPortLabel (addDynamicPortLabel s b) b2 with hs2
  have hpm2 : s2pre.portMappings = s.portMappings := by
    rw [hs2, addDynamicPortLabel_portMappings, addDynamicPortLabel_portMappings]
  have hm : ([(⟨toString n, c, q⟩ : PortMatch)]).find?
      (fun m => mkPortKey m.cport m.proto == key) = some ⟨toString n, c, q⟩ := by
    rw [List.find?_cons_of_pos _ (by simpa using hkey)]
  have hbind := @refresh_binding_first s2pre labelOf min max L b2 key c q (toString n)
    [⟨toString n, c, q⟩] hfind hm (by rw [hpm2]; exact hb2fresh)
  refine ⟨refreshContainersOk s2pre labelOf min max L, hval, hbind.1, ?_, ?_⟩
  · rw [getContainer_refresh]
    rw [List.find?_eq_none.mpr ?_]
    · rfl
    · intro en hen
      simpa using hbabsent en hen
  · have := allocLoop_range h 100 0 n j halloc
    omega

/-- Scenario S2's prior state: container `a` tracked with `8080->80/tcp`. -/
def storeA : ContainerStore :=
  ⟨[⟨"a", [⟨"80", "8080", "tcp", "8080"⟩], false⟩],
   [("a", [("80/tcp", "8080")])], []⟩

/-- Counterexample for claim C3 as stated: in scenario S2 (tracked `a` on
`8080/tcp`, start event for `b` bound `8080->80/tcp`, allocation yields
`10000`), the replacement `b2` ends with `original = "10000"`, not the
pre-relocation port `"8080"` required by the claim (the old port is not
carried into the replacement's record). -/
theorem claim_C3_counterexample :
    (handleContainerStart storeA 10000 65000 "b" noLabels (some [("80/tcp", "8080")])
      (fun _ => true) (fun _ => 0) (fun _ => "b2") (fun _ => true)
      (.ok [("a", [⟨"8080", "80", "tcp"⟩]), ("b2", [⟨"10000", "80", "tcp"⟩])])).map
        (fun pr => ((getBinding pr.1 "b2" "80/tcp").map PortMapping.originalPort,
                    getContainer pr.1 "b", pr.2.length)) =
      some (some "10000", none, 1) ∧ ("10000" : String) ≠ "8080" := by
  exact ⟨rfl, by decide⟩

/-- Witness for C3 at the concrete S2 instance. -/
theorem claim_C3_witness :
    ∃ s1, handleContainerStart storeA 10000 65000 "b" noLabels
        (some [("80/tcp", "8080")]) (fun _ => true) (fun _ => 0) (fun _ => "b2")
        (fun _ => true)
        (.ok [("a", [⟨"8080", "80", "tcp"⟩]), ("b2", [⟨"10000", "80", "tcp"⟩])]) =
        some (s1, [⟨"b", "b2", "80/tcp", "8080", toString (10000 : Int)⟩]) ∧
      getBinding s1 "b2" "80/tcp" =
        some ⟨"80", toString (10000 : Int), "tcp", toString (10000 : Int)⟩ ∧
      getContainer s1 "b" = none ∧
      (10000 : Int) ≤ 10000 ∧ (10000 : Int) ≤ 65000 := by
  exact claim_C3 storeA 10000 65000 "b" noLabels "80/tcp" "8080" "80" "tcp" 8080
    (fun _ => true) (fun _ => 0) (fun _ => "b2") (fun _ => true) "b2"
    [("a", [⟨"8080", "80", "tcp"⟩]), ("b2", [⟨"10000", "80", "tcp"⟩])] 10000 1
    rfl (by norm_num) (by decide) (by decide) rfl (by decide) (by norm_num) rfl rfl
    (by decide) (by decide) rfl (by decide)

/-! ### No-double-binding lemmas -/

/-- The `(host-port, protocol)` pairs of all tracked bindings, in container
order. -/
def bindingPairsOf : List Container → List (String × String)
  | [] => []
  | c :: rest =>
    (c.portMappings.map fun pm => (pm.hostPort, pm.protocol)) ++ bindingPairsOf rest

/-- The `(host-port, protocol)` pairs reported by a listing. -/
def obsPairsOf : Listing → List (String × String)
  | [] => []
  | e :: rest => (e.2.map fun m => (m.host, m.proto)) ++ obsPairsOf rest

/-- The runtime-consistency condition for one refresh: whenever the store
already holds a mapping for a listed container's binding key, the stored
host port equals the newly observed one.  Docker guarantees this — a
container's bindings are fixed for its lifetime and ids are not reused. -/
def listingConsistent (s : ContainerStore) (L : Listing) : Prop :=
  ∀ en ∈ L, ∀ m ∈ en.2, ∀ v,
    lookup2 s.portMappings en.1 (mkPortKey m.cport m.proto) = some v → v = m.host

theorem parse_pairs (s : ContainerStore) (labelOf : String → String → String)
    (min max : Int) (id : String) (ms : List PortMatch)
    (hcons : ∀ m ∈ ms, ∀ v,
      lookup2 s.portMappings id (mkPortKey m.cport m.proto) = some v → v = m.host) :
    (parsePortsWithoutRemapping s labelOf min max id ms s.portMappings).1.map
        (fun pm => (pm.hostPort, pm.protocol)) =
      ms.map fun m => (m.host, m.proto) := by
  cases hl : lookupA s.portMappings id with
  | none =>
    rw [parse_fst_of_none hl, List.map_map]
    rfl
  | some stored =>
    rw [parse_of_some hl, restorePortMappings_fst, List.map_map]
    apply List.map_congr_left
    intro m hm
    have hro : restoreOne stored m = ⟨m.cport, m.host, m.proto, m.host⟩ := by
      unfold restoreOne
      cases hsk : lookupA stored (mkPortKey m.cport m.proto) with
      | none => rfl
      | some w =>
        have hv : w = m.host := by
          apply hcons m hm w
          unfold lookup2
          rw [hl]
          dsimp only
          exact hsk
        subst hv
        dsimp only
        rw [if_neg (by simp)]
    simp [hro]

theorem refresh_pairs {s : ContainerStore} {labelOf : String → String → String}
    {min max : Int} {L : Listing} (hcons : listingConsistent s L) :
    bindingPairsOf (refreshContainersOk s labelOf min max L).containers =
      obsPairsOf L := by
  rw [refreshContainersOk_containers]
  induction L with
  | nil => rfl
  | cons e rest ih =>
    have hcons_head : ∀ m ∈ e.2, ∀ v,
        lookup2 s.portMappings e.1 (mkPortKey m.cport m.proto) = some v → v = m.host :=
      fun m hm v hv => hcons e (List.mem_cons_self e rest) m hm v hv
    have hcons_tail : listingConsistent s rest :=
      fun en hen m hm v hv => hcons en (List.mem_cons_of_mem e hen) m hm v hv
    show (refreshEntryContainer s labelOf min max e).portMappings.map
        (fun pm => (pm.hostPort, pm.protocol)) ++
        bindingPairsOf (rest.map (refreshEntryContainer s labelOf min max)) =
      (e.2.map fun m => (m.host, m.proto)) ++ obsPairsOf rest
    rw [ih hcons_tail]
    unfold refreshEntryContainer
    rw [parse_pairs s labelOf min max e.1 e.2 hcons_head]

theorem bindingPairsOf_filter_sublist (cs : List Container) (p : Container → Bool) :
    List.Sublist (bindingPairsOf (cs.filter p)) (bindingPairsOf cs) := by
  induction cs with
  | nil => exact List.Sublist.refl _
  | cons c rest ih =>
    rw [List.filter_cons]
    by_cases hp : p c = true
    · rw [if_pos hp]
      show List.Sublist (_ ++ bindingPairsOf (rest.filter p)) (_ ++ bindingPairsOf rest)
      exact ih.append_left _
    · rw [if_neg hp]
      exact ih.trans (List.sublist_append_right _ _)

/-- Claim C6 (amended): the pair `(host_port, proto)` is unique across
all tracked containers' bindings in every store snapshot produced by a
refresh whose listing reports pairwise-distinct `(host-port, proto)`
pairs and whose stored per-key host ports match the observed ones, and the
deletion performed on stop/remove events preserves that uniqueness.  The
two listing conditions do not hold of every reachable run — a dual-stack
`docker ps` Ports column repeats each published port
(`0.0.0.0:8080->80/tcp, :::8080->80/tcp`), so `portRegex` yields the same
`(host, proto)` pair twice, and a container publishing one container port
on two host ports breaks the stored-equals-observed condition at the
second refresh — and without them duplicates arise for still-running
containers (see the counterexample), so the unconditional claim fails. -/
theorem claim_C6 :
    (∀ (s : ContainerStore) (labelOf : String → String → String) (min max : Int)
       (L : Listing),
       listingConsistent s L →
       (obsPairsOf L).Nodup →
       (bindingPairsOf (refreshContainersOk s labelOf min max L).containers).Nodup) ∧
    (∀ (s : ContainerStore) (cid : String),
       (bindingPairsOf s.containers).Nodup →
       (bindingPairsOf (deleteFromStore s cid).containers).Nodup) := by
  constructor
  · intro s labelOf min max L hcons hobs
    rw [refresh_pairs hcons]
    exact hobs
  · intro s cid hnd
    exact hnd.sublist (bindingPairsOf_filter_sublist s.containers _)

/-- Witness for C6: a consistent one-container listing refreshed into the
empty store, and a deletion from `storeA`. -/
theorem claim_C6_witness :
    (bindingPairsOf (refreshContainersOk emptyStore noLabels 10000 65000
        [("a", [⟨"3000", "80", "tcp"⟩])]).containers).Nodup ∧
    (bindingPairsOf (deleteFromStore storeA "a").containers).Nodup := by
  constructor
  · apply claim_C6.1 emptyStore noLabels 10000 65000 [("a", [⟨"3000", "80", "tcp"⟩])]
    · intro en hen m hm v hv
      simp [lookup2, lookupA, emptyStore] at hv
    · decide
  · apply claim_C6.2 storeA "a"
    decide

/-- A listing entry as produced by a dual-stack `docker ps` line whose
Ports column reads `0.0.0.0:8080->80/tcp, :::8080->80/tcp`: `portRegex`
(whose IPv4 group is optional) matches `8080->80/tcp` in both halves, so
the same `(host, cport, proto)` match appears twice.  The duplicate shares
key and value, so Go's map semantics and the association list agree on
the stored mapping this entry produces. -/
def dualStackListing : Listing :=
  [("a", [⟨"8080", "80", "tcp"⟩, ⟨"8080", "80", "tcp"⟩])]

/-- Counterexample for claim C6 as stated: refreshing the empty store from
a routine dual-stack listing yields a snapshot whose single container `a`
— listed by the runtime in that very refresh, so not "disappeared" —
carries two bindings with the equal pair `(8080, tcp)`: the pair is not
unique across tracked containers' bindings, and the claim's only
exception (a disappeared container) does not apply. -/
theorem claim_C6_counterexample :
    (refreshContainersOk emptyStore noLabels 10000 65000 dualStackListing).containers =
      [⟨"a", [⟨"80", "8080", "tcp", "8080"⟩, ⟨"80", "8080", "tcp", "8080"⟩], false⟩] ∧
    ¬ (bindingPairsOf (refreshContainersOk emptyStore noLabels 10000 65000
        dualStackListing).containers).Nodup := by
  exact ⟨rfl, by decide⟩

/-! ### Group pre-planner lemmas -/

theorem composeInUse_eq (s : ContainerStore) (listen : Int → Bool) (p : Int)
    (q : String) :
    composeInUse s listen p q = (storeUsesPort s p || !listen p) := by
  have himp : (s.containers.any fun c =>
      c.portMappings.any fun pm => atoiZ pm.hostPort == p && pm.protocol == q) = true →
      storeUsesPort s p = true := by
    intro ha
    obtain ⟨c, hc, hpm⟩ := List.any_eq_true.mp ha
    obtain ⟨pm, hpmm, hand⟩ := List.any_eq_true.mp hpm
    have h1 : (atoiZ pm.hostPort == p) = true := by
      cases hb : (atoiZ pm.hostPort == p)
      · rw [hb] at hand
        simp at hand
      · rfl
    apply List.any_eq_true.mpr
    exact ⟨c, hc, List.any_eq_true.mpr ⟨pm, hpmm, h1⟩⟩
  unfold composeInUse isPortAvailable
  by_cases hin : (s.containers.any fun c =>
      c.portMappings.any fun pm => atoiZ pm.hostPort == p && pm.protocol == q) = true
  · simp [hin, himp hin]
  · have hin' : (s.containers.any fun c =>
        c.portMappings.any fun pm => atoiZ pm.hostPort == p && pm.protocol == q) = false := by
      simpa using hin
    cases hsu : storeUsesPort s p <;> cases hl : listen p <;> simp [hin', hsu, hl]

theorem lookupA_mapSet_self (k v : String) :
    ∀ acc, lookupA (mapSet acc k v) k = some v := by
  intro acc
  induction acc with
  | nil => simp [mapSet, lookupA]
  | cons e rest ih =>
    unfold mapSet
    by_cases he : (e.1 == k) = true
    · rw [if_pos he]
      simp [lookupA]
    · rw [if_neg he]
      have he' : (e.1 == k) = false := by simpa using he
      unfold lookupA at ih ⊢
      rw [List.find?_cons]
      dsimp only
      rw [he']
      exact ih

theorem lookupA_mapSet_other (k v k' : String) (h : (k' == k) = false) :
    ∀ acc, lookupA (mapSet acc k v) k' = lookupA acc k' := by
  have hkk : (k == k') = false := by
    have hne : ¬ k' = k := by simpa using h
    simpa using fun he => hne he.symm
  intro acc
  induction acc with
  | nil =>
    unfold mapSet lookupA
    rw [List.find?_cons]
    dsimp only
    rw [hkk]
  | cons e rest ih =>
    unfold mapSet
    by_cases he : (e.1 == k) = true
    · rw [if_pos he]
      have he1 : e.1 = k := by simpa using he
      have he2 : (e.1 == k') = false := by rw [he1]; exact hkk
      unfold lookupA
      rw [List.find?_cons, List.find?_cons]
      dsimp only
      rw [hkk, he2]
    · rw [if_neg he]
      unfold lookupA at ih ⊢
      rw [List.find?_cons, List.find?_cons]
      dsimp only
      cases he' : (e.1 == k') with
      | true => rfl
      | false => exact ih

theorem lookupA_mapSet_isSome (k v k' : String) (acc : List (String × String))
    (h : (lookupA acc k').isSome = true) :
    (lookupA (mapSet acc k v) k').isSome = true := by
  by_cases hk : (k' == k) = true
  · have he : k' = k := by simpa using hk
    rw [he, lookupA_mapSet_self]
    rfl
  · rw [lookupA_mapSet_other k v k' (by simpa using hk)]
    exact h

theorem checkServicePorts_mono {s : ContainerStore} {min max : Int}
    {listen : Int → Bool} {draws : Nat → Nat} {svc : String} :
    ∀ (ports : List ComposePort) (acc : List (String × String)) (idx : Nat)
      (acc' : List (String × String)) (idx' : Nat),
      checkServicePorts s min max listen draws svc ports acc idx = some (acc', idx') →
      ∀ k, (lookupA acc k).isSome = true → (lookupA acc' k).isSome = true := by
  intro ports
  induction ports with
  | nil =>
    intro acc idx acc' idx' hc k hk
    simp only [checkServicePorts, Option.some.injEq, Prod.mk.injEq] at hc
    rw [← hc.1]
    exact hk
  | cons e rest ih =>
    intro acc idx acc' idx' hc k hk
    simp only [checkServicePorts] at hc
    by_cases h1 : (parseComposePort e).1 == "" || (parseComposePort e).2.1 == ""
    · rw [if_pos h1] at hc
      exact ih acc idx acc' idx' hc k hk
    · rw [if_neg h1] at hc
      cases hat : goAtoi (parseComposePort e).1 with
      | none =>
        rw [hat] at hc
        exact ih acc idx acc' idx' hc k hk
      | some portInt =>
        rw [hat] at hc
        dsimp only at hc
        by_cases h2 : composeInUse s listen portInt (parseComposePort e).2.2 = true
        · rw [if_pos h2] at hc
          cases hal : allocateRandomPort s min max listen draws idx with
          | none => rw [hal] at hc; cases hc
          | some pr =>
            rw [hal] at hc
            dsimp only at hc
            exact ih _ _ acc' idx' hc k
              (lookupA_mapSet_isSome _ _ k acc hk)
        · rw [if_neg h2] at hc
          exact ih acc idx acc' idx' hc k hk

theorem checkServicePorts_records {s : ContainerStore} {min max : Int}
    {listen : Int → Bool} {draws : Nat → Nat} {svc : String} :
    ∀ (ports : List ComposePort) (acc : List (String × String)) (idx : Nat)
      (acc' : List (String × String)) (idx' : Nat),
      checkServicePorts s min max listen draws svc ports acc idx = some (acc', idx') →
      ∀ e ∈ ports, ∀ hps cp pq, parseComposePort e = (hps, cp, pq) →
        hps ≠ "" → cp ≠ "" →
        ∀ pInt, goAtoi hps = some pInt →
          composeInUse s listen pInt pq = true →
          (lookupA acc' (svc ++ ":" ++ hps)).isSome = true := by
  intro ports
  induction ports with
  | nil =>
    intro acc idx acc' idx' _ e he
    simp at he
  | cons e0 rest ih =>
    intro acc idx acc' idx' hc e he hps cp pq hparse hne1 hne2 pInt hat hconf
    simp only [checkServicePorts] at hc
    rcases List.mem_cons.mp he with hhead | htail
    · subst hhead
      rw [hparse] at hc
      dsimp only at hc
      rw [if_neg (by simp [hne1, hne2]), hat] at hc
      dsimp only at hc
      rw [if_pos hconf] at hc
      cases hal : allocateRandomPort s min max listen draws idx with
      | none => rw [hal] at hc; cases hc
      | some pr =>
        rw [hal] at hc
        dsimp only at hc
        exact checkServicePorts_mono rest _ _ acc' idx' hc _
          (by rw [lookupA_mapSet_self]; rfl)
    · by_cases h1 : (parseComposePort e0).1 == "" || (parseComposePort e0).2.1 == ""
      · rw [if_pos h1] at hc
        exact ih acc idx acc' idx' hc e htail hps cp pq hparse hne1 hne2 pInt hat hconf
      · rw [if_neg h1] at hc
        cases hat0 : goAtoi (parseComposePort e0).1 with
        | none =>
          rw [hat0] at hc
          exact ih acc idx acc' idx' hc e htail hps cp pq hparse hne1 hne2 pInt hat hconf
        | some p0 =>
          rw [hat0] at hc
          dsimp only at hc
          by_cases h2 : composeInUse s listen p0 (parseComposePort e0).2.2 = true
          · rw [if_pos h2] at hc
            cases hal : allocateRandomPort s min max listen draws idx with
            | none => rw [hal] at hc; cases hc
            | some pr =>
              rw [hal] at hc
              dsimp only at hc
              exact ih _ _ acc' idx' hc e htail hps cp pq hparse hne1 hne2 pInt hat hconf
          · rw [if_neg h2] at hc
            exact ih acc idx acc' idx' hc e htail hps cp pq hparse hne1 hne2 pInt hat hconf

theorem checkServicePorts_sound {s : ContainerStore} {min max : Int}
    {listen : Int → Bool} {draws : Nat → Nat} {svc : String} :
    ∀ (ports : List ComposePort) (acc : List (String × String)) (idx : Nat)
      (acc' : List (String × String)) (idx' : Nat),
      checkServicePorts s min max listen draws svc ports acc idx = some (acc', idx') →
      ∀ k, (lookupA acc' k).isSome = true →
        (lookupA acc k).isSome = true ∨
        ∃ e ∈ ports, ∃ hps cp pq pInt,
          parseComposePort e = (hps, cp, pq) ∧ hps ≠ "" ∧ cp ≠ "" ∧
          goAtoi hps = some pInt ∧ composeInUse s listen pInt pq = true ∧
          k = svc ++ ":" ++ hps := by
  intro ports
  induction ports with
  | nil =>
    intro acc idx acc' idx' hc k hk
    simp only [checkServicePorts, Option.some.injEq, Prod.mk.injEq] at hc
    rw [← hc.1] at hk
    exact Or.inl hk
  | cons e0 rest ih =>
    intro acc idx acc' idx' hc k hk
    simp only [checkServicePorts] at hc
    by_cases h1 : (parseComposePort e0).1 == "" || (parseComposePort e0).2.1 == ""
    · rw [if_pos h1] at hc
      rcases ih acc idx acc' idx' hc k hk with hl | ⟨e, he, w⟩
      · exact Or.inl hl
      · exact Or.inr ⟨e, List.mem_cons_of_mem e0 he, w⟩
    · rw [if_neg h1] at hc
      cases hat0 : goAtoi (parseComposePort e0).1 with
      | none =>
        rw [hat0] at hc
        rcases ih acc idx acc' idx' hc k hk with hl | ⟨e, he, w⟩
        · exact Or.inl hl
        · exact Or.inr ⟨e, List.mem_cons_of_mem e0 he, w⟩
      | some p0 =>
        rw [hat0] at hc
        dsimp only at hc
        by_cases h2 : composeInUse s listen p0 (parseComposePort e0).2.2 = true
        · rw [if_pos h2] at hc
          cases hal : allocateRandomPort s min max listen draws idx with
          | none => rw [hal] at hc; cases hc
          | some pr =>
            rw [hal] at hc
            dsimp only at hc
            rcases ih _ _ acc' idx' hc k hk with hl | ⟨e, he, w⟩
            · by_cases hkk : (k == svc ++ ":" ++ (parseComposePort e0).1) = true
              · have hne12 : ¬ (parseComposePort e0).1 = "" ∧
                    ¬ (parseComposePort e0).2.1 = "" := by simpa using h1
                exact Or.inr ⟨e0, List.mem_cons_self e0 rest,
                  (parseComposePort e0).1, (parseComposePort e0).2.1,
                  (parseComposePort e0).2.2, p0, rfl, hne12.1, hne12.2, hat0, h2,
                  by simpa using hkk⟩
              · rw [lookupA_mapSet_other _ _ k (by simpa using hkk)] at hl
                exact Or.inl hl
            · exact Or.inr ⟨e, List.mem_cons_of_mem e0 he, w⟩
        · rw [if_neg h2] at hc
          rcases ih acc idx acc' idx' hc k hk with hl | ⟨e, he, w⟩
          · exact Or.inl hl
          · exact Or.inr ⟨e, List.mem_cons_of_mem e0 he, w⟩

/-- Whether two descriptor port entries have the same form (string vs
table). -/
def sameForm : ComposePort → ComposePort → Bool
  | .str _, .str _ => true
  | .tbl _ _ _, .tbl _ _ _ => true
  | _, _ => false

theorem applyPortSub_str_no (old new v : String)
    (h : goHasPrefix (old ++ ":") v = false) :
    applyPortSub old new (.str v) = .str v := by
  unfold applyPortSub
  dsimp only
  rw [h]
  rfl

theorem applyPortSub_str_yes (old new v a b : String)
    (hpre : goHasPrefix (old ++ ":") v = true) (hsplit : goSplit ':' v = [a, b]) :
    applyPortSub old new (.str v) = .str (new ++ ":" ++ b) := by
  unfold applyPortSub
  dsimp only
  rw [hpre, hsplit]
  rfl

theorem applyPortSub_tbl_pstr (old new w : String) (tgt : Option PubVal)
    (pr : Option String) :
    applyPortSub old new (.tbl (some (.pstr w)) tgt pr) =
      .tbl (some (.pstr (if w == old then new else w))) tgt pr := by
  unfold applyPortSub
  dsimp only
  by_cases hw : (w == old) = true
  · rw [hw]
    rfl
  · have hw' : (w == old) = false := by simpa using hw
    rw [hw']
    rfl

theorem applyPortSub_tbl_pint (old new : String) (n : Int) (tgt : Option PubVal)
    (pr : Option String) :
    applyPortSub old new (.tbl (some (.pint n)) tgt pr) =
      .tbl (some (.pint (if toString n == old then atoiZ new else n))) tgt pr := by
  unfold applyPortSub
  dsimp only
  by_cases hw : (toString n == old) = true
  · rw [hw]
    rfl
  · have hw' : (toString n == old) = false := by simpa using hw
    rw [hw']
    rfl

theorem applyPortSub_tbl_none (old new : String) (tgt : Option PubVal)
    (pr : Option String) :
    applyPortSub old new (.tbl none tgt pr) = .tbl none tgt pr := rfl

theorem sameForm_applyPortSub (old new : String) (e : ComposePort) :
    sameForm e (applyPortSub old new e) = true := by
  cases e with
  | str v =>
    unfold applyPortSub
    dsimp only
    split
    · split
      · rfl
      · rfl
    · rfl
  | tbl pub tgt pr =>
    cases pub with
    | none => rfl
    | some w =>
      cases w with
      | pstr v =>
        unfold applyPortSub
        dsimp only
        by_cases hw : (v == old) = true
        · rw [hw]
          rfl
        · rw [show (v == old) = false by simpa using hw]
          rfl
      | pint n =>
        unfold applyPortSub
        dsimp only
        by_cases hw : (toString n == old) = true
        · rw [hw]
          rfl
        · rw [show (toString n == old) = false by simpa using hw]
          rfl

theorem applyRemapping_eq (services : List (String × List ComposePort))
    (key svc old new : String) (hk : goSplit ':' key = [svc, old]) :
    applyRemapping services key new =
      services.map fun sv =>
        if sv.1 == svc then (sv.1, sv.2.map (applyPortSub old new)) else sv := by
  unfold applyRemapping
  rw [hk]
  rfl

/-- Claim C7 (amended): group pre-planning marks a descriptor's
`(service, host port, proto)` entry as conflicting iff some tracked
binding holds the host port — under **any** protocol, because
`isPortAvailable`'s container scan ignores the protocol — or a local TCP
listen on the host port fails; for each conflict it records a mapping
`"<service>:<host>"` → new port (and only conflicts are recorded); and the
emitted descriptor applies exactly those substitutions in place: string
entries whose host segment equals the old port stay strings with the host
replaced, table entries stay tables with `published` substituted
preserving its string/int form, and all other entries are unchanged. -/
theorem claim_C7 :
    (∀ (s : ContainerStore) (listen : Int → Bool) (p : Int) (q : String),
       composeInUse s listen p q = (storeUsesPort s p || !listen p)) ∧
    (∀ (s : ContainerStore) (min max : Int) (listen : Int → Bool) (draws : Nat → Nat)
       (svc : String) (ports : List ComposePort) (acc : List (String × String))
       (idx : Nat) (acc' : List (String × String)) (idx' : Nat),
       checkServicePorts s min max listen draws svc ports acc idx = some (acc', idx') →
       ∀ e ∈ ports, ∀ hps cp pq, parseComposePort e = (hps, cp, pq) →
         hps ≠ "" → cp ≠ "" →
         ∀ pInt, goAtoi hps = some pInt →
           composeInUse s listen pInt pq = true →
           (lookupA acc' (svc ++ ":" ++ hps)).isSome = true) ∧
    (∀ (s : ContainerStore) (min max : Int) (listen : Int → Bool) (draws : Nat → Nat)
       (svc : String) (ports : List ComposePort) (acc : List (String × String))
       (idx : Nat) (acc' : List (String × String)) (idx' : Nat),
       checkServicePorts s min max listen draws svc ports acc idx = some (acc', idx') →
       ∀ k, (lookupA acc' k).isSome = true →
         (lookupA acc k).isSome = true ∨
         ∃ e ∈ ports, ∃ hps cp pq pInt,
           parseComposePort e = (hps, cp, pq) ∧ hps ≠ "" ∧ cp ≠ "" ∧
           goAtoi hps = some pInt ∧ composeInUse s listen pInt pq = true ∧
           k = svc ++ ":" ++ hps) ∧
    (∀ (services : List (String × List ComposePort)) (key new : String),
       generateRemappedComposeFile services [(key, new)] = applyRemapping services key new) ∧
    (∀ (services : List (String × List ComposePort)) (key svc old new : String),
       goSplit ':' key = [svc, old] →
       applyRemapping services key new =
         services.map fun sv =>
           if sv.1 == svc then (sv.1, sv.2.map (applyPortSub old new)) else sv) ∧
    (∀ (old new : String) (e : ComposePort), sameForm e (applyPortSub old new e) = true) ∧
    (∀ (old new v : String), goHasPrefix (old ++ ":") v = false →
       applyPortSub old new (.str v) = .str v) ∧
    (∀ (old new v a b : String), goHasPrefix (old ++ ":") v = true →
       goSplit ':' v = [a, b] →
       applyPortSub old new (.str v) = .str (new ++ ":" ++ b)) ∧
    (∀ (old new w : String) (tgt : Option PubVal) (pr : Option String),
       applyPortSub old new (.tbl (some (.pstr w)) tgt pr) =
         .tbl (some (.pstr (if w == old then new else w))) tgt pr) ∧
    (∀ (old new : String) (n : Int) (tgt : Option PubVal) (pr : Option String),
       applyPortSub old new (.tbl (some (.pint n)) tgt pr) =
         .tbl (some (.pint (if toString n == old then atoiZ new else n))) tgt pr) ∧
    (∀ (old new : String) (tgt : Option PubVal) (pr : Option String),
       applyPortSub old new (.tbl none tgt pr) = .tbl none tgt pr) := by
  refine ⟨composeInUse_eq, ?_, ?_, ?_, ?_, sameForm_applyPortSub,
    applyPortSub_str_no, applyPortSub_str_yes, applyPortSub_tbl_pstr,
    applyPortSub_tbl_pint, applyPortSub_tbl_none⟩
  · intro s min max listen draws svc ports acc idx acc' idx' hc
    exact checkServicePorts_records ports acc idx acc' idx' hc
  · intro s min max listen draws svc ports acc idx acc' idx' hc
    exact checkServicePorts_sound ports acc idx acc' idx' hc
  · intro services key new
    rfl
  · intro services key svc old new hk
    exact applyRemapping_eq services key svc old new hk

/-- A store tracking one container bound on `8080/udp`. -/
def storeUdp : ContainerStore :=
  ⟨[⟨"u", [⟨"80", "8080", "udp", "8080"⟩], false⟩], [("u", [("80/udp", "8080")])], []⟩

/-- The conflict condition exactly as the claim states it: some tracked
binding holds `(host, proto)` — protocol-specific — or the local TCP
listen on the host fails. -/
def claimConflictC7 (s : ContainerStore) (listen : Int → Bool) (p : Int)
    (q : String) : Bool :=
  (s.containers.any fun c =>
    c.portMappings.any fun pm => atoiZ pm.hostPort == p && pm.protocol == q) || !listen p

/-- Counterexample for claim C7 as stated: with a tracked `8080/udp`
binding and an all-true listen probe, the descriptor entry `web: "8080:80"`
(tcp) is recorded as conflicting — `isPortAvailable`'s container scan
ignores the protocol — although no tracked binding holds `(8080, tcp)` and
the listen probe succeeds, so the claim's iff fails. -/
theorem claim_C7_counterexample :
    checkServicePorts storeUdp 10000 65000 (fun _ => true) (fun _ => 0) "web"
      [.str "8080:80"] [] 0 = some ([("web:8080", "10000")], 1) ∧
    claimConflictC7 storeUdp (fun _ => true) 8080 "tcp" = false := by
  exact ⟨rfl, by decide⟩

/-- Witness for C7: the recording conjunct at the `storeUdp` scenario and
the string substitution at `"8080:80"`. -/
theorem claim_C7_witness :
    (lookupA [("web:8080", "10000")] ("web" ++ ":" ++ "8080")).isSome = true ∧
    applyPortSub "8080" "10000" (.str "8080:80") = .str ("10000" ++ ":" ++ "80") := by
  constructor
  · exact claim_C7.2.1 storeUdp 10000 65000 (fun _ => true) (fun _ => 0) "web"
      [.str "8080:80"] [] 0 [("web:8080", "10000")] 1 rfl (.str "8080:80") (by simp)
      "8080" "80" "tcp" (by decide) (by decide) (by decide) 8080 (by decide) (by decide)
  · exact claim_C7.2.2.2.2.2.2.2.1 "8080" "10000" "8080:80" "8080" "80" (by decide)
      (by decide)
